import Mathlib

/-!
Verification development for the summarization request orchestrator of the
`summary-extension` repository.  The TypeScript sources under `src/` are
shallowly embedded below: pure functions become Lean functions, the
asynchronous orchestrator becomes explicit state passing over a pending
request map, network calls become an oracle of type
`... → Except String LLMResponse` (a thrown JavaScript `Error` is
`Except.error msg`, a resolved value is `Except.ok`), and the side effects
of the orchestrator (provider initialization, provider invocations, cache
writes, conversation-context stores) are collected into an explicit event
trace.
-/

namespace SummaryExt

/-! ## Data model (src/api-integrations/types.ts) -/

/-- Model of `ChatMessage.role` values: `'system' | 'user' | 'assistant'`. -/
inductive Role where
  | system
  | user
  | assistant
deriving DecidableEq, Repr

/-- Model of `ChatMessage` from types.ts: `{role, content}`. -/
structure ChatMessage where
  role : Role
  content : String
deriving DecidableEq, Repr

/-- Model of `LLMResponse` from types.ts: `{summary, error?, fromCache?, cachedAt?}`. -/
structure LLMResponse where
  summary : String
  error : Option String := none
  fromCache : Option Bool := none
  cachedAt : Option Nat := none
deriving DecidableEq, Repr

/-- Model of `Language` from types.ts: `'chinese' | 'english'`. -/
inductive Language where
  | chinese
  | english
deriving DecidableEq, Repr

/-- Model of `APIProvider` from types.ts. -/
inductive Provider where
  | claude
  | openai
  | openrouter
  | portkey
deriving DecidableEq, Repr

/-- Model of `PromptConfig` from types.ts.  The temperature is a JavaScript number
(0.5 in the defaults); it is embedded as a rational. -/
structure PromptConfig where
  systemPrompt : String
  userPrompt : String
  temperature : ℚ
  maxTokens : Nat
deriving DecidableEq, Repr

/-- Model of `CustomPrompts` from types.ts: one `PromptConfig` per language. -/
structure CustomPrompts where
  chinese : PromptConfig
  english : PromptConfig
deriving DecidableEq, Repr

/-- Selects the per-language entry of a `CustomPrompts` record
(`customPrompts[language]`). -/
def CustomPrompts.get (cp : CustomPrompts) : Language → PromptConfig
  | Language.chinese => cp.chinese
  | Language.english => cp.english

/-- Model of `DEFAULT_PROMPTS` from types.ts. -/
def DEFAULT_PROMPTS : Language → PromptConfig
  | Language.chinese =>
    { systemPrompt := "你是一个有用的助手，专门总结网页内容。请提供简洁、结构清晰的摘要，突出主要观点和关键信息。"
      userPrompt := "请为以下网页内容提供一个简洁、结构清晰的中文摘要，突出主要观点和关键信息：\n\n{text}"
      temperature := 1/2
      maxTokens := 1000 }
  | Language.english =>
    { systemPrompt := "You are a helpful assistant that summarizes web page content. Provide a concise, well-structured summary highlighting the main points and key information."
      userPrompt := "Please provide a concise, well-structured summary of this webpage content, highlighting the main points and key information:\n\n{text}"
      temperature := 1/2
      maxTokens := 1000 }

/-- Model of `getPromptConfig` from types.ts: a supplied `CustomPrompts` record always
has both language entries, so the TypeScript truthiness test
`customPrompts && customPrompts[language]` reduces to presence of the record. -/
def getPromptConfig (language : Language) (customPrompts : Option CustomPrompts) : PromptConfig :=
  match customPrompts with
  | some cp => cp.get language
  | none => DEFAULT_PROMPTS language

/-- Character-level scan replacing the first occurrence of `pat` in the
scanned list by `repl` (the semantics of JavaScript
`String.prototype.replace` with a plain-string pattern). -/
def replList : List Char → List Char → List Char → List Char
  | [], pat, repl => if pat = [] then repl else []
  | c :: rest, pat, repl =>
    if pat.isPrefixOf (c :: rest) then repl ++ (c :: rest).drop pat.length
    else c :: replList rest pat repl

/-- JavaScript `String.prototype.replace` with a plain-string pattern
replaces only the first occurrence. -/
def replaceFirst (s pat repl : String) : String :=
  String.mk (replList s.data pat.data repl.data)

/-- Model of `createPrompt` from types.ts: interpolate the text into the user
template (`userPrompt.replace('{text}', text)`). -/
def createPrompt (text : String) (language : Language) (customPrompts : Option CustomPrompts) : String :=
  replaceFirst (getPromptConfig language customPrompts).userPrompt "{text}" text

/-- Model of `textToChatMessages` from types.ts: a single user-role message carrying
the interpolated user prompt. -/
def textToChatMessages (text : String) (language : Language) (customPrompts : Option CustomPrompts) : List ChatMessage :=
  [{ role := Role.user, content := createPrompt text language customPrompts }]

/-- Model of `isTextSummarization` from types.ts: exactly one message and its role is
`user`. -/
def isTextSummarization : List ChatMessage → Bool
  | [m] => m.role == Role.user
  | _ => false

/-- The `messagesOrText : ChatMessage[] | string` union consumed by every
adapter's `callAPI`. -/
inductive APIInput where
  | text (s : String)
  | msgs (ms : List ChatMessage)
deriving DecidableEq, Repr

/-- The raw-text branch of `ClaudeAPI.callAPI` (claude adapter, lines 32-44):
a single user message; a pre-built message list passes through unchanged. -/
def claudeResolveMessages (input : APIInput) (language : Language)
    (customPrompts : Option CustomPrompts) : List ChatMessage :=
  match input with
  | APIInput.text s => [{ role := Role.user, content := createPrompt s language customPrompts }]
  | APIInput.msgs ms => ms

/-- The raw-text branch of `OpenAIAPI.callAPI` (openai.ts lines 32-49),
identical in openrouter.ts and portkey.ts: a system message holding the
system template followed by a user message holding the interpolated user
template; a pre-built message list passes through unchanged. -/
def openaiResolveMessages (input : APIInput) (language : Language)
    (customPrompts : Option CustomPrompts) : List ChatMessage :=
  match input with
  | APIInput.text s =>
    [{ role := Role.system, content := (getPromptConfig language customPrompts).systemPrompt },
     { role := Role.user, content := createPrompt s language customPrompts }]
  | APIInput.msgs ms => ms

/-- The fixed part of the default English user template, before the
interpolated text. -/
def engUserPromptPrefix : String :=
  "Please provide a concise, well-structured summary of this webpage content, highlighting the main points and key information:\n\n"

/-- The fixed part of the default Chinese user template, before the
interpolated text. -/
def zhUserPromptPrefix : String :=
  "请为以下网页内容提供一个简洁、结构清晰的中文摘要，突出主要观点和关键信息：\n\n"

/-! ## Adapter HTTP response handling (claude / openai.ts / openrouter.ts)

Each adapter performs one `fetch`, and on `!response.ok` builds an enhanced
message and throws `new Error(...)`; on an ok response it extracts the
content.  A `fetch` outcome is embedded as `HTTPResponse`; the adapter's
handling of it is a function into `Except String LLMResponse`, where
`Except.error` is a thrown `Error`. -/

/-- A well-formed (parsed) HTTP response: status code, status text, the
vendor message extracted by `errorData.error?.message || errorData.message`
(collapsed into one optional field), and the extracted summary content. -/
structure HTTPResponse where
  status : Nat
  statusText : String
  errMessage : Option String
  content : Option String
deriving DecidableEq, Repr

/-- Model of `fetch`'s `Response.ok`: status in the range 200-299. -/
def respOk (r : HTTPResponse) : Bool :=
  decide (200 ≤ r.status) && decide (r.status ≤ 299)

/-- JavaScript `a || 'default'` on an extracted string: the default is used
both when the field is missing and when it is the empty string. -/
def orDefault (o : Option String) (d : String) : String :=
  match o with
  | some s => if s = "" then d else s
  | none => d

/-- The error message built by `ClaudeAPI.callAPI` for a non-ok response
(no status-specific hints). -/
def claudeErrorMessage (status : Nat) (statusText details : String) : String :=
  "Claude API request failed (" ++ toString status ++ " " ++ statusText ++ "): " ++ details

/-- The enhanced error message built by `OpenAIAPI.callAPI` for a non-ok
response (hints for 401 / 404 / 429 / 5xx). -/
def openaiErrorMessage (status : Nat) (statusText details : String) : String :=
  let base := "OpenAI API request failed (" ++ toString status ++ " " ++ statusText ++ "): " ++ details
  if status = 401 then
    base ++ "\n\nTip: Check if your OpenAI API key is valid. Get one from https://platform.openai.com/"
  else if status = 404 then
    base ++ "\n\nTip: The model may not be available. Check available models at https://platform.openai.com/docs/models"
  else if status = 429 then
    base ++ "\n\nTip: Rate limit exceeded. Please wait before trying again or check your usage limits."
  else if 500 ≤ status then
    base ++ "\n\nTip: OpenAI service error. The service may be temporarily unavailable."
  else base

/-- The enhanced error message built by `OpenRouterAPI.callAPI` for a non-ok
response (hints for 401 / 429 / 5xx). -/
def openrouterErrorMessage (status : Nat) (statusText details : String) : String :=
  let base := "API request failed (" ++ toString status ++ " " ++ statusText ++ "): " ++ details
  if status = 401 then
    base ++ "\n\nTip: Check if your API key is valid and active."
  else if status = 429 then
    base ++ "\n\nTip: You have hit rate limits. Please wait before trying again."
  else if 500 ≤ status then
    base ++ "\n\nTip: This is a server error. The API service may be temporarily unavailable."
  else base

/-- Model of `ClaudeAPI.callAPI` handling of the `fetch` response: throw the built
message on `!response.ok`, otherwise extract
`data.content?.[0]?.text || 'No response generated'`. -/
def claudeHandleResponse (r : HTTPResponse) : Except String LLMResponse :=
  if respOk r then
    Except.ok { summary := orDefault r.content "No response generated" }
  else
    Except.error (claudeErrorMessage r.status r.statusText (orDefault r.errMessage "Unknown error"))

/-- Model of `OpenAIAPI.callAPI` handling of the `fetch` response. -/
def openaiHandleResponse (r : HTTPResponse) : Except String LLMResponse :=
  if respOk r then
    Except.ok { summary := orDefault r.content "No response generated" }
  else
    Except.error (openaiErrorMessage r.status r.statusText (orDefault r.errMessage "Unknown error"))

/-- Model of `OpenRouterAPI.callAPI` handling of the `fetch` response. -/
def openrouterHandleResponse (r : HTTPResponse) : Except String LLMResponse :=
  if respOk r then
    Except.ok { summary := orDefault r.content "No response generated" }
  else
    Except.error (openrouterErrorMessage r.status r.statusText (orDefault r.errMessage "Unknown error"))

/-! ## Boundary message dispatch (background.ts, chrome.runtime.onMessage) -/

/-- The outcome of one dispatch of the `chrome.runtime.onMessage` switch:
either the action is recognized and handled (asynchronously answered), or
the default case answers immediately with an error object. -/
inductive DispatchOutcome where
  | handled (action : String)
  | errorResponse (msg : String)
deriving DecidableEq, Repr

/-- The action tags of the switch cases in the message listener. -/
def knownActions : List String :=
  ["getAllTabs", "extractTabText", "startSummarize", "getRequestStatus",
   "summarizeText", "openDetachedWindow", "getCacheStats", "clearCache",
   "chatMessage", "getConversationContext", "clearConversationContext"]

/-- The `switch (request.action)` of the message listener: each known case
handles the message, the `default` case answers
`sendResponse({error: 'Unknown action'})`. -/
def dispatchAction (action : String) : DispatchOutcome :=
  if action = "getAllTabs" then DispatchOutcome.handled action
  else if action = "extractTabText" then DispatchOutcome.handled action
  else if action = "startSummarize" then DispatchOutcome.handled action
  else if action = "getRequestStatus" then DispatchOutcome.handled action
  else if action = "summarizeText" then DispatchOutcome.handled action
  else if action = "openDetachedWindow" then DispatchOutcome.handled action
  else if action = "getCacheStats" then DispatchOutcome.handled action
  else if action = "clearCache" then DispatchOutcome.handled action
  else if action = "chatMessage" then DispatchOutcome.handled action
  else if action = "getConversationContext" then DispatchOutcome.handled action
  else if action = "clearConversationContext" then DispatchOutcome.handled action
  else DispatchOutcome.errorResponse "Unknown action"

/-! ## Portkey large-context truncation (portkey.ts, `processLargeContext`) -/

/-- The rough token estimate used throughout: `Math.ceil(text.length / 4)`. -/
def estimateTokens (s : String) : Nat := (s.length + 3) / 4

/-- Total estimated tokens of a list of messages. -/
def estimateTokensList (ms : List ChatMessage) : Nat :=
  ms.foldl (fun acc m => acc + estimateTokens m.content) 0

/-- The loop of `PortkeyAPI.processLargeContext` over
`messages.slice(1).reverse()` (newest first).  `processed` is the
`processedMessages` array with index 0 at the head, so the JavaScript
`unshift` is list cons.  The arithmetic of
`availableTokens - totalTokens` is JavaScript number arithmetic and may go
negative, hence the `Int` comparisons; `substring(0, n)` clamps a negative
`n` to 0, hence `Int.toNat`. -/
def plcLoop (maxTokens : Nat) : List ChatMessage → List ChatMessage → Nat → List ChatMessage
  | [], processed, _ => processed
  | m :: rest, processed, totalTokens =>
    let messageTokens := estimateTokens m.content
    let reservedTokens := maxTokens / 3
    let availableTokens := maxTokens - reservedTokens
    if totalTokens + messageTokens ≤ availableTokens then
      plcLoop maxTokens rest (m :: processed) (totalTokens + messageTokens)
    else
      if (messageTokens : Int) > (availableTokens : Int) - (totalTokens : Int) then
        let availableChars : Int := ((availableTokens : Int) - (totalTokens : Int)) * 4
        let truncatedContent := String.mk (m.content.data.take availableChars.toNat) ++ "..."
        { role := m.role, content := truncatedContent } :: processed
      else
        plcLoop maxTokens rest processed totalTokens

/-- The initial `processedMessages` of `processLargeContext`: `messages[0]`
when it has system role ("Always keep system message"). -/
def keepSystemHead (messages : List ChatMessage) : List ChatMessage :=
  match messages with
  | m :: _ => if m.role = Role.system then [m] else []
  | [] => []

/-- The initial `totalTokens` of `processLargeContext`. -/
def systemHeadTokens (messages : List ChatMessage) : Nat :=
  match messages with
  | m :: _ => if m.role = Role.system then estimateTokens m.content else 0
  | [] => 0

/-- Model of `PortkeyAPI.processLargeContext`: keep `messages[0]` when it is a system
message, then process `messages.slice(1)` from newest to oldest. -/
def processLargeContext (messages : List ChatMessage) (maxTokens : Nat) : List ChatMessage :=
  plcLoop maxTokens (messages.drop 1).reverse (keepSystemHead messages) (systemHeadTokens messages)

/-- Estimated token sum of a message list (`estimateTokens` per content). -/
def estSumList (l : List ChatMessage) : Nat :=
  (l.map (fun m => estimateTokens m.content)).sum

/-! ## Orchestrator effects and the provider oracle (background.ts)

Provider calls are represented by an oracle.  `callText` is
`portkeyProvider.callAPI(processedContext, ...)` on a string (the synopsis
request), `callMsgs` is the selected adapter's `callAPI(messages, ...)`,
`callLarge` is `portkeyProvider.callLargeContextAPI(messages, ...)`.
`Except.error msg` stands for a rejected promise / thrown `Error`. -/

structure ProviderOracle where
  callText : String → Except String LLMResponse
  callMsgs : List ChatMessage → Except String LLMResponse
  callLarge : List ChatMessage → Except String LLMResponse

/-- An oracle all of whose calls succeed, built from the response functions
of a stub provider. -/
def okOracle (ft : String → LLMResponse) (fm : List ChatMessage → LLMResponse)
    (fl : List ChatMessage → LLMResponse) : ProviderOracle where
  callText s := Except.ok (ft s)
  callMsgs ms := Except.ok (fm ms)
  callLarge ms := Except.ok (fl ms)

/-- Observable effects of one `callLLMAPI` run, in program order. -/
inductive Event where
  | setContext (tabId : Nat) (msgs : List ChatMessage)
  | initProvider (p : Provider)
  | apiText (ctx : String)
  | apiMsgs (msgs : List ChatMessage)
  | apiLarge (msgs : List ChatMessage)
  | cacheWrite (url : String) (lang : Language) (summary : String) (p : Provider)
deriving DecidableEq, Repr

/-- Model of `PortkeyAPI` defines `callLargeContextAPI`, so every
`apiProvider.callLargeContextAPI` truthiness test in background.ts passes. -/
def portkeyHasLargeContext : Bool := true

/-! ## Context Chunker (background.ts, `chunkLargeContext`) -/

/-- Model of `maxChunkSize` in `chunkLargeContext` (measured, like
`currentChunkSize`, in characters of message content). -/
def maxChunkSize : Nat := 50000

/-- Accumulated content size of a chunk (the running `currentChunkSize`). -/
def chunkContentSize (c : List ChatMessage) : Nat :=
  c.foldl (fun acc m => acc + m.content.length) 0

/-- The loop of `chunkLargeContext`: flush the current chunk when adding the
next message would exceed `maxChunkSize` and the chunk is nonempty; a
message is never split. -/
def chunkLoop : List ChatMessage → List ChatMessage → Nat → List (List ChatMessage)
  | [], currentChunk, _ =>
    if currentChunk = [] then [] else [currentChunk]
  | m :: ms, currentChunk, currentChunkSize =>
    if currentChunkSize + m.content.length > maxChunkSize ∧ currentChunk ≠ [] then
      currentChunk :: chunkLoop ms [m] m.content.length
    else
      chunkLoop ms (currentChunk ++ [m]) (currentChunkSize + m.content.length)

/-- Model of `BackgroundService.chunkLargeContext`. -/
def chunkLargeContext (messages : List ChatMessage) : List (List ChatMessage) :=
  chunkLoop messages [] 0

/-! ## Chunked processing (background.ts, `handleExtremelyLargeContext`) -/

/-- The wire name of a role, used when a processed chunk is appended to
`processedContext` as `` `${msg.role}: ${msg.content}` ``. -/
def roleString : Role → String
  | Role.system => "system"
  | Role.user => "user"
  | Role.assistant => "assistant"

/-- Model of `chunk.map(msg => ...).join('\n')` of `handleExtremelyLargeContext`. -/
def renderChunk (c : List ChatMessage) : String :=
  String.intercalate "\n" (c.map fun m => roleString m.role ++ ": " ++ m.content)

/-- Model of `BackgroundService.integrateSummaryWithChunk`: prepend the synopsis as a
synthetic system message when it is nonempty, otherwise return the chunk
unchanged. -/
def integrateSummaryWithChunk (chunk : List ChatMessage) (summary : String)
    (language : Language) : List ChatMessage :=
  if summary = "" then chunk
  else
    { role := Role.system
      content :=
        match language with
        | Language.chinese =>
          "之前的对话摘要：" ++ summary ++ "\n\n请基于这个摘要和当前对话继续回答。"
        | Language.english =>
          "Previous conversation summary: " ++ summary ++
            "\n\nPlease continue the conversation based on this summary and the current dialogue." } :: chunk

/-- The synopsis step at the top of each loop iteration of
`handleExtremelyLargeContext`: for every chunk after the first
(`i > 0 && processedContext.length > 0`), request a synopsis of the
processed context; a failure of this call is caught (`console.warn`) and
the previous `conversationSummary` kept.  Returns the (possibly updated)
`conversationSummary` and the emitted call events. -/
def synopsisStep (o : ProviderOracle) (i : Nat) (processedContext conversationSummary : String) :
    String × List Event :=
  if 0 < i ∧ 0 < processedContext.length then
    match o.callText processedContext with
    | Except.ok r => (r.summary, [Event.apiText processedContext])
    | Except.error _ => (conversationSummary, [Event.apiText processedContext])
  else (conversationSummary, [])

/-- The `for (let i = 0; ...)` loop of `handleExtremelyLargeContext` over the
chunks: synopsis step, then `callLargeContextAPI` on the chunk with the
synopsis integrated (a failure there propagates and aborts the whole
operation), then extend `processedContext`; the response to the last chunk
is returned.  An empty chunk list falls through to
`throw new Error('Failed to process large context')`. -/
def elcLoop (o : ProviderOracle) (language : Language) :
    List (List ChatMessage) → Nat → String → String → Except String LLMResponse × List Event
  | [], _, _, _ => (Except.error "Failed to process large context", [])
  | chunk :: rest, i, processedContext, conversationSummary =>
    let s := synopsisStep o i processedContext conversationSummary
    let chunkWithSummary := integrateSummaryWithChunk chunk s.1 language
    if portkeyHasLargeContext then
      match o.callLarge chunkWithSummary with
      | Except.error e => (Except.error e, s.2 ++ [Event.apiLarge chunkWithSummary])
      | Except.ok response =>
        let processedContext' := processedContext ++ "\n\n" ++ renderChunk chunk
        match rest with
        | [] => (Except.ok response, s.2 ++ [Event.apiLarge chunkWithSummary])
        | r1 :: rs =>
          let next := elcLoop o language (r1 :: rs) (i + 1) processedContext' s.1
          (next.1, s.2 ++ [Event.apiLarge chunkWithSummary] ++ next.2)
    else (Except.error "Large context API not available", s.2)

/-- Model of `messages.reduce((sum, msg) => sum + msg.content.length, 0)`. -/
def totalContentLength (ms : List ChatMessage) : Nat :=
  ms.foldl (fun acc m => acc + m.content.length) 0

/-- Model of `Math.ceil(totalLength / 4)` over the whole message list. -/
def estimatedTokensOf (ms : List ChatMessage) : Nat :=
  (totalContentLength ms + 3) / 4

/-- Model of `BackgroundService.handleExtremelyLargeContext`: re-initialize the
portkey provider, re-estimate, use the plain large-context call when under
100K estimated tokens, otherwise chunk and run the loop. -/
def handleExtremelyLargeContext (o : ProviderOracle) (language : Language)
    (messages : List ChatMessage) : Except String LLMResponse × List Event :=
  if estimatedTokensOf messages < 100000 ∧ portkeyHasLargeContext then
    (o.callLarge messages, [Event.initProvider Provider.portkey, Event.apiLarge messages])
  else
    let r := elcLoop o language (chunkLargeContext messages) 0 "" ""
    (r.1, Event.initProvider Provider.portkey :: r.2)

/-! ## Summary cache (persisted layout; `SummaryCache` is modelled from the
spec since `cache.ts` is not among the provided sources) -/

/-- A persisted cache entry: `{summary, provider, timestamp}`. -/
structure CacheEntry where
  summary : String
  provider : Provider
  timestamp : Nat
deriving DecidableEq, Repr

/-- The persistent `summary_cache` collection, keyed by
`"<content-key>|<language>"`. -/
def CacheStore := List (String × CacheEntry)

/-- Wire name of a language (the `language` strings `'chinese'`/`'english'`). -/
def languageString : Language → String
  | Language.chinese => "chinese"
  | Language.english => "english"

/-- The cache key `` `${url}|${language}` `` used by
`BackgroundService.getCacheEntry` and by the persisted layout. -/
def cacheKey (url : String) (language : Language) : String :=
  url ++ "|" ++ languageString language

/-- Model of `BackgroundService.getCacheEntry`: raw lookup of `cache[cacheKey]` in the
`summary_cache` collection (`null` when absent). -/
def getCacheEntry (store : CacheStore) (url : String) (language : Language) : Option CacheEntry :=
  (List.find? (fun p => p.1 == cacheKey url language) store).map (fun p => p.2)

/-- Modelled from the spec: `SummaryCache.get` (`cache.ts` is not among the
provided sources).  Spec §4.2: "returns absent if no entry, or if the
entry's age exceeds the configured expiry (stale entries are treated as
absent...)", reading the persisted collection of §6. -/
def summaryCacheGet (store : CacheStore) (url : String) (language : Language)
    (now expiry : Nat) : Option String :=
  match getCacheEntry store url language with
  | none => none
  | some e => if now - e.timestamp > expiry then none else some e.summary

/-! ## Request orchestrator (background.ts, `BackgroundService`) -/

/-- Model of `ChatRequest` from types.ts.  The optional `url` is embedded as a string
whose JavaScript truthiness test `if (url && ...)` is `url ≠ ""` (both
`undefined` and `''` are falsy). -/
structure ChatRequest where
  messages : List ChatMessage
  provider : Provider
  apiKey : String
  apiUrl : Option String := none
  virtualKey : Option String := none
  modelIdentifier : Option String := none
  language : Option Language := none
  customPrompts : Option CustomPrompts := none
  url : String := ""
  forceFresh : Bool := false
  tabId : Option Nat := none
deriving DecidableEq, Repr

/-- The generic tail of `callLLMAPI` (lines 259-266): call the adapter's
`callAPI` and, on a successful summarizing response with a content key,
write the summary to the cache before returning the response. -/
def genericAPIPath (o : ProviderOracle) (req : ChatRequest) (language : Language) :
    Except String LLMResponse × List Event :=
  match o.callMsgs req.messages with
  | Except.error e => (Except.error e, [Event.apiMsgs req.messages])
  | Except.ok response =>
    if req.url ≠ "" ∧ response.summary ≠ "" ∧ response.error = none ∧
        isTextSummarization req.messages = true then
      (Except.ok response,
        [Event.apiMsgs req.messages,
         Event.cacheWrite req.url language response.summary req.provider])
    else
      (Except.ok response, [Event.apiMsgs req.messages])

/-- The conversation-context store step of `callLLMAPI`
(`this.conversationContexts.set(...)` when a tab id is present). -/
def contextEvents (req : ChatRequest) : List Event :=
  match req.tabId with
  | some t => [Event.setContext t req.messages]
  | none => []

/-- Everything `callLLMAPI` does after the cache check misses or is
skipped: store the conversation context, initialize the selected provider,
take the portkey large-context branches or the generic adapter call. -/
def callLLMAPIAfterCache (o : ProviderOracle) (req : ChatRequest) (language : Language) :
    Except String LLMResponse × List Event :=
  let pre := contextEvents req ++ [Event.initProvider req.provider]
  if req.provider = Provider.portkey then
    if estimatedTokensOf req.messages > 100000 ∧ portkeyHasLargeContext = true then
      let r := handleExtremelyLargeContext o language req.messages
      (r.1, pre ++ r.2)
    else if portkeyHasLargeContext then
      (o.callLarge req.messages, pre ++ [Event.apiLarge req.messages])
    else
      let g := genericAPIPath o req language
      (g.1, pre ++ g.2)
  else
    let g := genericAPIPath o req language
    (g.1, pre ++ g.2)

/-- The body of `BackgroundService.callLLMAPI` inside its `try`: cache
check first (only for non-forced single-user-message requests with a
content key), then `callLLMAPIAfterCache`.  The result is `Except.error`
exactly when the body would throw. -/
def callLLMAPIBody (o : ProviderOracle) (store : CacheStore) (now expiry : Nat)
    (req : ChatRequest) : Except String LLMResponse × List Event :=
  let language := req.language.getD Language.chinese
  let cacheHit : Option String :=
    if req.url ≠ "" ∧ req.forceFresh = false ∧ isTextSummarization req.messages = true then
      summaryCacheGet store req.url language now expiry
    else none
  match cacheHit with
  | some cachedSummary =>
    (Except.ok
      { summary := cachedSummary
        error := none
        fromCache := some true
        cachedAt := (getCacheEntry store req.url language).map (fun e => e.timestamp) }, [])
  | none => callLLMAPIAfterCache o req language

/-- Model of `BackgroundService.callLLMAPI`: the surrounding `try/catch` converts any
thrown failure into a resolved `{summary: '', error: message}` response, so
the function always resolves. -/
def callLLMAPI (o : ProviderOracle) (store : CacheStore) (now expiry : Nat)
    (req : ChatRequest) : LLMResponse × List Event :=
  match callLLMAPIBody o store now expiry req with
  | (Except.ok r, evs) => (r, evs)
  | (Except.error e, evs) => ({ summary := "", error := some e }, evs)

/-- The `status` field of a `PendingRequest`:
`'pending' | 'processing' | 'completed' | 'error'`. -/
inductive RequestStatus where
  | pending
  | processing
  | completed
  | error
deriving DecidableEq, Repr

/-- Model of `PendingRequest` from background.ts. -/
structure PendingRequest where
  id : String
  tabUrl : String
  status : RequestStatus
  result : Option LLMResponse := none
  error : Option String := none
  timestamp : Nat
deriving DecidableEq, Repr

/-- The pending request map (`Map<string, PendingRequest>`). -/
def PendingMap := List (String × PendingRequest)

/-- Model of `Map.get`. -/
def pendingGet (m : PendingMap) (id : String) : Option PendingRequest :=
  (List.find? (fun p => p.1 == id) m).map (fun p => p.2)

/-- Model of `Map.set` (insert or overwrite). -/
def pendingSet (m : PendingMap) (id : String) (pr : PendingRequest) : PendingMap :=
  (id, pr) :: List.filter (fun p => p.1 != id) m

/-- Model of `BackgroundService.processLLMRequest` as a state transformer: look up
the pending request (missing id: no-op), mark it `processing`, then record
the outcome of `callLLMAPI` — `Except.ok` (a resolved promise) as terminal
`completed` with the result, `Except.error` (a thrown failure, caught by
the surrounding `try/catch`) as terminal `error` with the message.  The
function is total: no outcome escapes it. -/
def processLLMRequest (m : PendingMap) (requestId : String)
    (outcome : Except String LLMResponse) : PendingMap :=
  match pendingGet m requestId with
  | none => m
  | some pr =>
    let pr1 := { pr with status := RequestStatus.processing }
    let m1 := pendingSet m requestId pr1
    match outcome with
    | Except.ok result =>
      pendingSet m1 requestId
        { pr1 with status := RequestStatus.completed, result := some result }
    | Except.error e =>
      pendingSet m1 requestId
        { pr1 with status := RequestStatus.error, error := some e }

/-- Composition of the asynchronous path as executed by
`startLLMRequest`/`processLLMRequest`: since `callLLMAPI` always resolves,
the outcome handed to the recording step is always `Except.ok` of its
response. -/
def processViaCallLLMAPI (m : PendingMap) (requestId : String) (o : ProviderOracle)
    (store : CacheStore) (now expiry : Nat) (req : ChatRequest) : PendingMap :=
  processLLMRequest m requestId (Except.ok (callLLMAPI o store now expiry req).1)

/-! ## Trace observations -/

/-- The payloads of the chunk (`callLargeContextAPI`) calls in a trace, in
order. -/
def chunkPayloads (evs : List Event) : List (List ChatMessage) :=
  evs.filterMap fun e =>
    match e with
    | Event.apiLarge ms => some ms
    | _ => none

/-- The contexts handed to the synopsis (`callAPI` on a string) calls in a
trace, in order. -/
def synPayloads (evs : List Event) : List String :=
  evs.filterMap fun e =>
    match e with
    | Event.apiText s => some s
    | _ => none

/-- A trace made of consecutive (synopsis call, chunk call) pairs. -/
def isSynChunkPairs : List Event → Bool
  | [] => true
  | Event.apiText _ :: Event.apiLarge _ :: rest => isSynChunkPairs rest
  | _ => false

/-- Whether an event is a cache write. -/
def isCacheWriteEv : Event → Bool
  | Event.cacheWrite _ _ _ _ => true
  | _ => false

/-- Whether an event is a synopsis (string `callAPI`) call. -/
def isApiTextEv : Event → Bool
  | Event.apiText _ => true
  | _ => false

/-- The running `processedContext` values at which the successive synopsis
requests are issued, starting from context `pc`, one per chunk after the
first. -/
def ctxsFrom (pc : String) : List (List ChatMessage) → List String
  | [] => []
  | c :: rest => pc :: ctxsFrom (pc ++ "\n\n" ++ renderChunk c) rest

/-! ## Concrete fixtures used by witnesses and counterexamples -/

/-- A string of `n` copies of `'a'` (symbolic stand-in for large page
content). -/
def bigStr (n : Nat) : String := String.mk (List.replicate n 'a')

/-- A 200002-character user message; two of them push the orchestrator's
token estimate to 100001, just over the 100K chunking threshold. -/
def demoLargeM1 : ChatMessage := { role := Role.user, content := bigStr 200002 }

/-- Second large user message (same shape). -/
def demoLargeM2 : ChatMessage := { role := Role.user, content := bigStr 200002 }

/-- A two-message sequence of 400004 characters: estimated 100001 tokens,
chunked into two single-message chunks of 200002 characters each. -/
def demoLargeMsgs : List ChatMessage := [demoLargeM1, demoLargeM2]

/-- The `processedContext` accumulated after the first demo chunk. -/
def demoLargePc : String := "" ++ "\n\n" ++ renderChunk [demoLargeM1]

/-- Stub synopsis responder. -/
def demoFt : String → LLMResponse := fun _ => { summary := "synopsis" }

/-- Stub plain-call responder. -/
def demoFm : List ChatMessage → LLMResponse := fun _ => { summary := "plain response" }

/-- Stub large-context responder. -/
def demoFl : List ChatMessage → LLMResponse := fun _ => { summary := "chunk response" }

/-- An oracle whose synopsis calls always fail while chunk calls succeed. -/
def synopsisFailOracle : ProviderOracle where
  callText _ := Except.error "synopsis failed"
  callMsgs _ := Except.ok { summary := "plain response" }
  callLarge _ := Except.ok { summary := "ok" }

/-- An oracle whose chunk (large-context) calls always fail. -/
def chunkFailOracle : ProviderOracle where
  callText _ := Except.ok { summary := "synopsis" }
  callMsgs _ := Except.ok { summary := "plain response" }
  callLarge _ := Except.error "chunk call failed"

/-- An oracle whose adapter `callAPI` calls always throw. -/
def msgsFailOracle : ProviderOracle where
  callText _ := Except.ok { summary := "synopsis" }
  callMsgs _ := Except.error "boom"
  callLarge _ := Except.ok { summary := "ok" }

/-- A small cache-eligible portkey request (single user message, non-empty
content key, no forced refresh). -/
def portkeyReqFix : ChatRequest :=
  { messages := [{ role := Role.user, content := "hi" }]
    provider := Provider.portkey
    apiKey := "k"
    url := "https://example.com" }

/-- A small cache-eligible openai request. -/
def openaiReqFix : ChatRequest :=
  { messages := [{ role := Role.user, content := "hi" }]
    provider := Provider.openai
    apiKey := "k"
    url := "https://example.com" }

/-- The same openai request with `forceFresh` set. -/
def forceFreshReqFix : ChatRequest :=
  { messages := [{ role := Role.user, content := "hi" }]
    provider := Provider.openai
    apiKey := "k"
    url := "https://example.com"
    forceFresh := true }

/-- A pending request freshly registered by `startLLMRequest`. -/
def pendingFix : PendingRequest :=
  { id := "r1", tabUrl := "https://example.com", status := RequestStatus.pending, timestamp := 0 }

/-- A pending map holding only `pendingFix`. -/
def pendingMapFix : PendingMap := [("r1", pendingFix)]

/-- A cache store holding one entry for `https://example.com` in English,
written at time 5. -/
def storeFix : CacheStore :=
  [("https://example.com|english",
    { summary := "cached summary", provider := Provider.openai, timestamp := 5 })]

/-- A cache-eligible English request matching `storeFix`. -/
def englishReqFix : ChatRequest :=
  { messages := [{ role := Role.user, content := "hi" }]
    provider := Provider.openai
    apiKey := "k"
    language := some Language.english
    url := "https://example.com" }

/-- A 429 response with a vendor message. -/
def resp429Fix : HTTPResponse :=
  { status := 429, statusText := "Too Many Requests", errMessage := some "rate limited", content := none }

/-- 20-character system prompt used by the truncation counterexample. -/
def plcSysContent : String := "aaaaaaaaaaaaaaaaaaaa"

/-- Fixture `[system (20 chars), user "bbbb"]`: with `maxTokens = 3` the system
message alone (5 estimated tokens) exceeds the 2 available tokens. -/
def plcCexMsgs : List ChatMessage :=
  [{ role := Role.system, content := plcSysContent },
   { role := Role.user, content := "bbbb" }]

/-- One small user message, kept as a single chunk by the chunker. -/
def smallMsgsFix : List ChatMessage := [{ role := Role.user, content := "hello" }]

/-! ## Helper lemmas -/

lemma replList_skip (rest pat repl : List Char) (c0 : Char) (pat' : List Char)
    (hpat : pat = c0 :: pat') :
    ∀ pre : List Char, c0 ∉ pre →
    replList (pre ++ rest) pat repl = pre ++ replList rest pat repl := by
  intro pre
  induction pre with
  | nil => simp
  | cons c cs ih =>
    intro hpre
    have hc : c ≠ c0 := fun h => hpre (by simp [h])
    have hno : pat.isPrefixOf (c :: (cs ++ rest)) = false := by
      subst hpat
      simp [List.isPrefixOf]
      intro h
      exact absurd h.symm hc
    show replList (c :: (cs ++ rest)) pat repl = _
    rw [replList, if_neg (by simp [hno])]
    rw [ih (fun h => hpre (List.mem_cons_of_mem _ h))]
    simp

lemma isPrefixOf_append_self (pat suffix : List Char) :
    pat.isPrefixOf (pat ++ suffix) = true := by
  induction pat with
  | nil => simp [List.isPrefixOf]
  | cons c cs ih => simp [List.isPrefixOf, ih]

lemma replList_at (pat suffix repl : List Char) (h : pat ≠ []) :
    replList (pat ++ suffix) pat repl = repl ++ suffix := by
  cases pat with
  | nil => exact absurd rfl h
  | cons c cs =>
    rw [List.cons_append, replList,
      if_pos (by rw [← List.cons_append]; exact isPrefixOf_append_self _ _)]
    rw [← List.cons_append, List.drop_append_of_le_length (by simp)]
    simp

lemma createPrompt_english_default (text : String) :
    createPrompt text Language.english none = engUserPromptPrefix ++ text := by
  show String.mk (replList (DEFAULT_PROMPTS Language.english).userPrompt.data
    "{text}".data text.data) = engUserPromptPrefix ++ text
  rw [show (DEFAULT_PROMPTS Language.english).userPrompt.data =
      engUserPromptPrefix.data ++ ("{text}".data ++ []) from by decide]
  rw [replList_skip _ _ _ '{' "text\x7d".data (by decide) _ (by decide)]
  rw [replList_at _ _ _ (by decide)]
  simp [engUserPromptPrefix]
  rfl

lemma createPrompt_chinese_default (text : String) :
    createPrompt text Language.chinese none = zhUserPromptPrefix ++ text := by
  show String.mk (replList (DEFAULT_PROMPTS Language.chinese).userPrompt.data
    "{text}".data text.data) = zhUserPromptPrefix ++ text
  rw [show (DEFAULT_PROMPTS Language.chinese).userPrompt.data =
      zhUserPromptPrefix.data ++ ("{text}".data ++ []) from by decide]
  rw [replList_skip _ _ _ '{' "text\x7d".data (by decide) _ (by decide)]
  rw [replList_at _ _ _ (by decide)]
  simp [zhUserPromptPrefix]
  rfl

lemma claudeErrorMessage_ne_empty (status : Nat) (st d : String) :
    claudeErrorMessage status st d ≠ "" := by
  intro hc
  have hl := congrArg String.length hc
  simp only [claudeErrorMessage, String.length_append] at hl
  have h27 : ("Claude API request failed (").length = 27 := rfl
  have h0 : ("" : String).length = 0 := rfl
  omega

lemma openaiErrorMessage_ne_empty (status : Nat) (st d : String) :
    openaiErrorMessage status st d ≠ "" := by
  unfold openaiErrorMessage
  have h27 : ("OpenAI API request failed (").length = 27 := rfl
  have h0 : ("" : String).length = 0 := rfl
  split_ifs
  all_goals intro hc
  all_goals have hl := congrArg String.length hc
  all_goals simp only [String.length_append] at hl
  all_goals omega

lemma openrouterErrorMessage_ne_empty (status : Nat) (st d : String) :
    openrouterErrorMessage status st d ≠ "" := by
  unfold openrouterErrorMessage
  have h20 : ("API request failed (").length = 20 := rfl
  have h0 : ("" : String).length = 0 := rfl
  split_ifs
  all_goals intro hc
  all_goals have hl := congrArg String.length hc
  all_goals simp only [String.length_append] at hl
  all_goals omega

/-! ## Claims -/

/-- C7: the Prompt Resolver turns raw text into a two-message exchange — an
optional system-template message (present for the openai/openrouter/portkey
adapters, absent for claude and for `textToChatMessages`) followed by a
user-template message with the text interpolated; it passes pre-built
message sequences through unchanged; and with no custom templates it falls
back to the built-in default template, temperature and max-token values for
the requested language. -/
theorem claim_C7_prompt_resolver (text : String) (language : Language)
    (customPrompts : Option CustomPrompts) (ms : List ChatMessage) :
    openaiResolveMessages (APIInput.text text) language customPrompts =
      [{ role := Role.system, content := (getPromptConfig language customPrompts).systemPrompt },
       { role := Role.user, content := createPrompt text language customPrompts }]
    ∧ claudeResolveMessages (APIInput.text text) language customPrompts =
      [{ role := Role.user, content := createPrompt text language customPrompts }]
    ∧ textToChatMessages text language customPrompts =
      [{ role := Role.user, content := createPrompt text language customPrompts }]
    ∧ openaiResolveMessages (APIInput.msgs ms) language customPrompts = ms
    ∧ claudeResolveMessages (APIInput.msgs ms) language customPrompts = ms
    ∧ getPromptConfig language none = DEFAULT_PROMPTS language
    ∧ (DEFAULT_PROMPTS language).temperature = 1/2
    ∧ (DEFAULT_PROMPTS language).maxTokens = 1000
    ∧ createPrompt text Language.english none = engUserPromptPrefix ++ text
    ∧ createPrompt text Language.chinese none = zhUserPromptPrefix ++ text := by
  refine ⟨rfl, rfl, rfl, rfl, rfl, rfl, ?_, ?_,
    createPrompt_english_default text, createPrompt_chinese_default text⟩
  · cases language <;> rfl
  · cases language <;> rfl

/-- C8: any boundary message whose action tag is not one of the known
actions is answered by the `default` case with an error response (never
silently dropped). -/
theorem claim_C8_unknown_action (a : String) (h : a ∉ knownActions) :
    dispatchAction a = DispatchOutcome.errorResponse "Unknown action" := by
  simp only [knownActions, List.mem_cons, List.not_mem_nil, or_false, not_or] at h
  obtain ⟨h1, h2, h3, h4, h5, h6, h7, h8, h9, h10, h11⟩ := h
  simp [dispatchAction, h1, h2, h3, h4, h5, h6, h7, h8, h9, h10, h11]

/-- Witness for C8 at the concrete unknown tag `"bogus"`. -/
theorem claim_C8_unknown_action_witness :
    dispatchAction "bogus" = DispatchOutcome.errorResponse "Unknown action" :=
  claim_C8_unknown_action "bogus" (by decide)

/-- Counterexample to C6 as stated: on a well-formed 429 response the
claude adapter's `callAPI` throws (`Except.error` in this embedding) rather
than converting the failure into a returned result. -/
theorem claim_C6_counterexample :
    claudeHandleResponse resp429Fix =
      Except.error "Claude API request failed (429 Too Many Requests): rate limited"
    ∧ (claudeHandleResponse resp429Fix).isOk = false := by
  constructor
  · rfl
  · rfl

/-- C6 (amended): on a well-formed non-2xx response every adapter's
`callAPI` throws an `Error` carrying a non-empty human-readable classified
message (with actionable hints, e.g. for 429 rate limits); the
orchestrator's `callLLMAPI` catches the throw and converts it into a
normalized result whose `error` field carries the message. -/
theorem claim_C6_amended_adapters_throw_classified (r : HTTPResponse)
    (h : respOk r = false) :
    (∃ m, claudeHandleResponse r = Except.error m ∧ m ≠ "")
    ∧ (∃ m, openaiHandleResponse r = Except.error m ∧ m ≠ ""
        ∧ (r.status = 429 → ∃ pre, m = pre ++
            "\n\nTip: Rate limit exceeded. Please wait before trying again or check your usage limits."))
    ∧ (∃ m, openrouterHandleResponse r = Except.error m ∧ m ≠ ""
        ∧ (r.status = 429 → ∃ pre, m = pre ++
            "\n\nTip: You have hit rate limits. Please wait before trying again."))
    ∧ (∀ o store now expiry req e evs,
        callLLMAPIBody o store now expiry req = (Except.error e, evs) →
        callLLMAPI o store now expiry req = ({ summary := "", error := some e }, evs)) := by
  refine ⟨?_, ?_, ?_, ?_⟩
  · exact ⟨_, by rw [claudeHandleResponse, if_neg (by simp [h])],
      claudeErrorMessage_ne_empty _ _ _⟩
  · refine ⟨_, by rw [openaiHandleResponse, if_neg (by simp [h])],
      openaiErrorMessage_ne_empty _ _ _, ?_⟩
    intro h429
    exact ⟨"OpenAI API request failed (" ++ toString r.status ++ " " ++ r.statusText ++ "): " ++
        orDefault r.errMessage "Unknown error",
      by simp [openaiErrorMessage, h429]⟩
  · refine ⟨_, by rw [openrouterHandleResponse, if_neg (by simp [h])],
      openrouterErrorMessage_ne_empty _ _ _, ?_⟩
    intro h429
    exact ⟨"API request failed (" ++ toString r.status ++ " " ++ r.statusText ++ "): " ++
        orDefault r.errMessage "Unknown error",
      by simp [openrouterErrorMessage, h429]⟩
  · intro o store now expiry req e evs hbody
    simp [callLLMAPI, hbody]

/-- Witness for the amended C6 at the concrete 429 response. -/
theorem claim_C6_amended_witness :
    (∃ m, claudeHandleResponse resp429Fix = Except.error m ∧ m ≠ "")
    ∧ (∃ m, openaiHandleResponse resp429Fix = Except.error m ∧ m ≠ ""
        ∧ (resp429Fix.status = 429 → ∃ pre, m = pre ++
            "\n\nTip: Rate limit exceeded. Please wait before trying again or check your usage limits."))
    ∧ (∃ m, openrouterHandleResponse resp429Fix = Except.error m ∧ m ≠ ""
        ∧ (resp429Fix.status = 429 → ∃ pre, m = pre ++
            "\n\nTip: You have hit rate limits. Please wait before trying again."))
    ∧ (∀ o store now expiry req e evs,
        callLLMAPIBody o store now expiry req = (Except.error e, evs) →
        callLLMAPI o store now expiry req = ({ summary := "", error := some e }, evs)) :=
  claim_C6_amended_adapters_throw_classified resp429Fix (by decide)

lemma plcLoop_shape (maxT : Nat) :
    ∀ (l acc : List ChatMessage) (total : Nat),
    ∃ keptRev rest tr,
      l = keptRev ++ rest ∧
      plcLoop maxT l acc total = tr ++ keptRev.reverse ++ acc ∧
      tr.length ≤ 1 ∧
      (tr = [] → rest = []) ∧
      (∀ t ∈ tr, ∃ m mrest, rest = m :: mrest ∧ t.role = m.role ∧
        ∃ txt, t.content = txt ++ "...") ∧
      (keptRev ≠ [] → total + estSumList keptRev ≤ maxT - maxT / 3) := by
  intro l
  induction l with
  | nil =>
    intro acc total
    exact ⟨[], [], [], rfl, by simp [plcLoop], by simp, fun _ => rfl, by simp, by simp⟩
  | cons m ls ih =>
    intro acc total
    by_cases hfit : total + estimateTokens m.content ≤ maxT - maxT / 3
    · obtain ⟨kR, rest, tr, hsplit, hres, htr, htrnil, htrc, hbound⟩ :=
        ih (m :: acc) (total + estimateTokens m.content)
      refine ⟨m :: kR, rest, tr, by simp [hsplit], ?_, htr, htrnil, htrc, ?_⟩
      · rw [plcLoop, if_pos hfit, hres]
        simp
      · intro _
        have hsum : estSumList (m :: kR) = estimateTokens m.content + estSumList kR := by
          simp [estSumList]
        by_cases hk : kR = []
        · subst hk
          have hz : estSumList ([] : List ChatMessage) = 0 := by simp [estSumList]
          omega
        · have hb := hbound hk
          omega
    · have hint2 : (estimateTokens m.content : Int) >
          ((maxT - maxT / 3 : Nat) : Int) - (total : Int) := by
        omega
      refine ⟨[], m :: ls,
        [{ role := m.role,
           content := String.mk (m.content.data.take
             ((((maxT - maxT / 3 : Nat) : Int) - (total : Int)) * 4).toNat) ++ "..." }],
        rfl, ?_, by simp, by simp, ?_, by simp⟩
      · rw [plcLoop, if_neg hfit, if_pos hint2]
        simp
      · intro t ht
        simp at ht
        exact ⟨m, ls, rfl, by rw [ht], ⟨_, by rw [ht]⟩⟩

/-- Counterexample to C10 as stated: with `maxTokens = 3` and messages
`[system (20 chars ≈ 5 tokens), user "bbbb"]`, `processLargeContext`
returns the (fully truncated) user message *before* the system message —
the result is not an order-preserving subsequence and the system message is
no longer leading — and its estimated token total (6) exceeds the budget
minus the reserved response share (2). -/
theorem claim_C10_counterexample :
    processLargeContext plcCexMsgs 3 =
      [{ role := Role.user, content := "..." },
       { role := Role.system, content := plcSysContent }]
    ∧ (processLargeContext plcCexMsgs 3).map (fun m => m.role) = [Role.user, Role.system]
    ∧ plcCexMsgs.map (fun m => m.role) = [Role.system, Role.user]
    ∧ 3 - 3 / 3 < estSumList (processLargeContext plcCexMsgs 3) := by
  refine ⟨?_, ?_, ?_, ?_⟩ <;> decide

/-- C10 (amended): `processLargeContext` keeps `messages[0]` only when it
has system role, and then places it at the *end* of the result; the other
kept messages form a suffix of `messages.slice(1)` preserving their
relative order (most recent preferred, oldest dropped first); at most one
additional (older) message is included in truncated form, marked with a
trailing ellipsis; and whenever at least one message is kept untruncated,
the estimated tokens of the system head plus all untruncated kept messages
fit within `maxTokens` minus the reserved third (the system head alone, or
the ellipsis marker, may exceed that budget). -/
theorem claim_C10_amended_truncation (messages : List ChatMessage) (maxTokens : Nat) :
    ∃ dropped kept tr,
      messages.drop 1 = dropped ++ kept ∧
      processLargeContext messages maxTokens = tr ++ kept ++ keepSystemHead messages ∧
      tr.length ≤ 1 ∧
      (tr = [] → dropped = []) ∧
      (∀ t ∈ tr, ∃ m, m ∈ dropped ∧ t.role = m.role ∧ ∃ txt, t.content = txt ++ "...") ∧
      (kept ≠ [] →
        systemHeadTokens messages + estSumList kept ≤ maxTokens - maxTokens / 3) := by
  obtain ⟨kR, rest, tr, hsplit, hres, htr, htrnil, htrc, hbound⟩ :=
    plcLoop_shape maxTokens ((messages.drop 1).reverse)
      (keepSystemHead messages) (systemHeadTokens messages)
  refine ⟨rest.reverse, kR.reverse, tr, ?_, ?_, htr, ?_, ?_, ?_⟩
  · have := congrArg List.reverse hsplit
    simpa using this
  · exact hres
  · intro h
    have := htrnil h
    simp [this]
  · intro t ht
    obtain ⟨m, mrest, hrest, hrole, htxt⟩ := htrc t ht
    exact ⟨m, by simp [hrest], hrole, htxt⟩
  · intro hne
    have h1 : kR ≠ [] := by simpa using hne
    have h2 := hbound h1
    have h3 : estSumList kR.reverse = estSumList kR := by
      simp [estSumList, List.sum_reverse]
    omega

/-- Witness for the amended C10 at the concrete truncation counterexample
input. -/
theorem claim_C10_amended_witness :
    ∃ dropped kept tr,
      plcCexMsgs.drop 1 = dropped ++ kept ∧
      processLargeContext plcCexMsgs 3 = tr ++ kept ++ keepSystemHead plcCexMsgs ∧
      tr.length ≤ 1 ∧
      (tr = [] → dropped = []) ∧
      (∀ t ∈ tr, ∃ m, m ∈ dropped ∧ t.role = m.role ∧ ∃ txt, t.content = txt ++ "...") ∧
      (kept ≠ [] →
        systemHeadTokens plcCexMsgs + estSumList kept ≤ 3 - 3 / 3) :=
  claim_C10_amended_truncation plcCexMsgs 3

lemma chunkContentSize_eq (l : List ChatMessage) :
    chunkContentSize l = (l.map (fun m => m.content.length)).sum := by
  have key : ∀ (xs : List ChatMessage) (n : Nat),
      xs.foldl (fun acc m => acc + m.content.length) n =
        n + (xs.map (fun m => m.content.length)).sum := by
    intro xs
    induction xs with
    | nil => intro n; simp
    | cons x rest ih =>
      intro n
      simp [List.foldl_cons, ih]
      omega
  simpa using key l 0

lemma chunkLoop_flatten : ∀ (ms cur : List ChatMessage) (sz : Nat),
    (chunkLoop ms cur sz).flatten = cur ++ ms := by
  intro ms
  induction ms with
  | nil =>
    intro cur sz
    by_cases h : cur = []
    · simp [chunkLoop, h]
    · simp [chunkLoop, h]
  | cons m ls ih =>
    intro cur sz
    rw [chunkLoop]
    by_cases h : sz + m.content.length > maxChunkSize ∧ cur ≠ []
    · rw [if_pos h]
      simp [ih]
    · rw [if_neg h]
      simp [ih]

lemma chunkLoop_mem : ∀ (ms cur : List ChatMessage),
    (cur = [] ∨ chunkContentSize cur ≤ maxChunkSize ∨
      ∃ m, cur = [m] ∧ maxChunkSize < m.content.length) →
    ∀ c ∈ chunkLoop ms cur (chunkContentSize cur),
      (chunkContentSize c ≤ maxChunkSize ∨
        ∃ m, c = [m] ∧ maxChunkSize < m.content.length) ∧ c ≠ [] := by
  intro ms
  induction ms with
  | nil =>
    intro cur hinv c hc
    by_cases h : cur = []
    · simp [chunkLoop, h] at hc
    · simp [chunkLoop, h] at hc
      subst hc
      rcases hinv with h0 | h1
      · exact absurd h0 h
      · exact ⟨h1, h⟩
  | cons m ls ih =>
    intro cur hinv c hc
    rw [chunkLoop] at hc
    by_cases h : chunkContentSize cur + m.content.length > maxChunkSize ∧ cur ≠ []
    · rw [if_pos h] at hc
      rcases List.mem_cons.mp hc with hc1 | hc2
      · subst hc1
        rcases hinv with h0 | h1
        · exact absurd h0 h.2
        · exact ⟨h1, h.2⟩
      · have hm : m.content.length = chunkContentSize [m] := by
          simp [chunkContentSize_eq]
        rw [hm] at hc2
        apply ih [m] _ c hc2
        by_cases hlen : chunkContentSize [m] ≤ maxChunkSize
        · exact Or.inr (Or.inl hlen)
        · refine Or.inr (Or.inr ⟨m, rfl, ?_⟩)
          have : chunkContentSize [m] = m.content.length := by
            simp [chunkContentSize_eq]
          omega
    · rw [if_neg h] at hc
      have hsz : chunkContentSize cur + m.content.length =
          chunkContentSize (cur ++ [m]) := by
        simp [chunkContentSize_eq]
      rw [hsz] at hc
      apply ih (cur ++ [m]) _ c hc
      by_cases hcur : cur = []
      · subst hcur
        simp only [List.nil_append]
        by_cases hlen : chunkContentSize [m] ≤ maxChunkSize
        · exact Or.inr (Or.inl hlen)
        · refine Or.inr (Or.inr ⟨m, rfl, ?_⟩)
          have : chunkContentSize [m] = m.content.length := by
            simp [chunkContentSize_eq]
          omega
      · have hle : chunkContentSize cur + m.content.length ≤ maxChunkSize := by
          rcases not_and_or.mp h with h1 | h2
          · omega
          · exact absurd hcur h2
        refine Or.inr (Or.inl ?_)
        omega

/-- C3: the Context Chunker partitions any message sequence into ordered
chunks whose concatenation is the original sequence (no splitting, no
reordering, no loss); every chunk either stays within the fixed per-chunk
budget or is a single message that alone exceeds the budget (and no chunk
is empty); and when the sequence's token estimate is below the 100K direct
threshold, `handleExtremelyLargeContext` performs no chunking and calls the
provider exactly once on the unchanged sequence. -/
theorem claim_C3_chunker_partition (messages : List ChatMessage) (language : Language) :
    (chunkLargeContext messages).flatten = messages
    ∧ (∀ c ∈ chunkLargeContext messages,
        (chunkContentSize c ≤ maxChunkSize ∨
          ∃ m, c = [m] ∧ maxChunkSize < m.content.length) ∧ c ≠ [])
    ∧ (∀ o : ProviderOracle, estimatedTokensOf messages < 100000 →
        handleExtremelyLargeContext o language messages =
          (o.callLarge messages,
           [Event.initProvider Provider.portkey, Event.apiLarge messages])) := by
  refine ⟨?_, ?_, ?_⟩
  · have := chunkLoop_flatten messages [] 0
    simpa [chunkLargeContext] using this
  · intro c hc
    have h0 : (0 : Nat) = chunkContentSize [] := by simp [chunkContentSize_eq]
    apply chunkLoop_mem messages [] (Or.inl rfl) c
    rw [← h0]
    exact hc
  · intro o hest
    simp [handleExtremelyLargeContext, hest, portkeyHasLargeContext]

/-- Witness for C3 at a one-message sequence (estimate far below the direct
threshold). -/
theorem claim_C3_chunker_partition_witness :
    (chunkLargeContext smallMsgsFix).flatten = smallMsgsFix
    ∧ ((chunkContentSize smallMsgsFix ≤ maxChunkSize ∨
        ∃ m, smallMsgsFix = [m] ∧ maxChunkSize < m.content.length) ∧ smallMsgsFix ≠ [])
    ∧ handleExtremelyLargeContext (okOracle demoFt demoFm demoFl) Language.english smallMsgsFix =
        ((okOracle demoFt demoFm demoFl).callLarge smallMsgsFix,
         [Event.initProvider Provider.portkey, Event.apiLarge smallMsgsFix]) :=
  ⟨(claim_C3_chunker_partition smallMsgsFix Language.english).1,
   (claim_C3_chunker_partition smallMsgsFix Language.english).2.1 smallMsgsFix (by decide),
   (claim_C3_chunker_partition smallMsgsFix Language.english).2.2
     (okOracle demoFt demoFm demoFl) (by decide)⟩

lemma length_pos_of_ne_empty (s : String) (h : s ≠ "") : 0 < s.length := by
  rcases s with ⟨data⟩
  cases data with
  | nil => exact absurd rfl h
  | cons c cs => simp [String.length]

lemma ctxsFrom_length (cs : List (List ChatMessage)) :
    ∀ pc, (ctxsFrom pc cs).length = cs.length := by
  induction cs with
  | nil => intro pc; rfl
  | cons c rest ih => intro pc; simp [ctxsFrom, ih]

lemma synopsisStep_events (o : ProviderOracle) (i : Nat) (pc cs : String) :
    (synopsisStep o i pc cs).2 = [] ∨ (synopsisStep o i pc cs).2 = [Event.apiText pc] := by
  unfold synopsisStep
  split_ifs
  · cases o.callText pc <;> simp
  · simp

lemma synopsisStep_on (ft : String → LLMResponse) (fm fl : List ChatMessage → LLMResponse)
    (i : Nat) (pc cs : String) (hi : 1 ≤ i) (hpc : pc ≠ "") :
    synopsisStep (okOracle ft fm fl) i pc cs = ((ft pc).summary, [Event.apiText pc]) := by
  unfold synopsisStep
  rw [if_pos ⟨by omega, length_pos_of_ne_empty pc hpc⟩]
  rfl

lemma synopsisStep_first (o : ProviderOracle) (pc cs : String) :
    synopsisStep o 0 pc cs = (cs, []) := by
  unfold synopsisStep
  rw [if_neg (by simp)]

lemma integrate_empty (chunk : List ChatMessage) (lang : Language) :
    integrateSummaryWithChunk chunk "" lang = chunk := by
  simp [integrateSummaryWithChunk]

lemma append3_ne_empty (a b c : String) (hb : b ≠ "") : a ++ b ++ c ≠ "" := by
  intro hc
  have hl := congrArg String.length hc
  simp only [String.length_append] at hl
  have h0 : ("" : String).length = 0 := rfl
  have hbpos := length_pos_of_ne_empty b hb
  omega

lemma okOracle_callLarge (ft : String → LLMResponse) (fm fl : List ChatMessage → LLMResponse)
    (ms : List ChatMessage) : (okOracle ft fm fl).callLarge ms = Except.ok (fl ms) := rfl

lemma elcLoop_ok_spec (ft : String → LLMResponse) (fm fl : List ChatMessage → LLMResponse)
    (lang : Language) :
    ∀ (cs : List (List ChatMessage)), cs ≠ [] →
    ∀ (i : Nat) (pc csum : String), 1 ≤ i → pc ≠ "" →
    ∃ r evs,
      elcLoop (okOracle ft fm fl) lang cs i pc csum = (Except.ok r, evs) ∧
      isSynChunkPairs evs = true ∧
      synPayloads evs = ctxsFrom pc cs ∧
      chunkPayloads evs =
        List.zipWith (fun c ctx => integrateSummaryWithChunk c (ft ctx).summary lang)
          cs (synPayloads evs) ∧
      (∃ p ps, chunkPayloads evs = ps ++ [p] ∧ r = fl p) := by
  intro cs
  induction cs with
  | nil => intro h; exact absurd rfl h
  | cons c rest ih =>
    intro _ i pc csum hi hpc
    have hs := synopsisStep_on ft fm fl i pc csum hi hpc
    cases rest with
    | nil =>
      refine ⟨fl (integrateSummaryWithChunk c (ft pc).summary lang),
        [Event.apiText pc,
         Event.apiLarge (integrateSummaryWithChunk c (ft pc).summary lang)],
        ?_, ?_, ?_, ?_, ?_⟩
      · rw [elcLoop]
        rw [hs]
        simp only [portkeyHasLargeContext, if_true, okOracle_callLarge]
        simp
      · rfl
      · rfl
      · rfl
      · exact ⟨_, [], rfl, rfl⟩
    | cons r1 rs =>
      have hne : pc ++ "\n\n" ++ renderChunk c ≠ "" :=
        append3_ne_empty pc "\n\n" (renderChunk c) (by decide)
      obtain ⟨r, evs, hloop, hpairs, hsyn, hcp, hlast⟩ :=
        ih (by simp) (i + 1) (pc ++ "\n\n" ++ renderChunk c) (ft pc).summary
          (by omega) hne
      refine ⟨r,
        Event.apiText pc ::
          Event.apiLarge (integrateSummaryWithChunk c (ft pc).summary lang) :: evs,
        ?_, ?_, ?_, ?_, ?_⟩
      · rw [elcLoop]
        rw [hs]
        simp only [portkeyHasLargeContext, if_true, okOracle_callLarge]
        rw [hloop]
        simp
      · simpa [isSynChunkPairs] using hpairs
      · simp [synPayloads, ctxsFrom] at hsyn ⊢
        exact hsyn
      · simp [chunkPayloads, synPayloads] at hcp ⊢
        exact hcp
      · obtain ⟨p, ps, hps, hr⟩ := hlast
        refine ⟨p, integrateSummaryWithChunk c (ft pc).summary lang :: ps, ?_, hr⟩
        simp [chunkPayloads] at hps ⊢
        exact hps

/-- C2: in the chunked path (all provider calls succeeding), chunks are
processed strictly in input order; the first chunk is sent as-is while each
later chunk is preceded by exactly one synopsis request over everything
processed so far, and it is precisely the provider's answer to that
request — `(ft ctx).summary` for the context `ctx` of the preceding
synopsis call — that is prepended (when nonempty) as a synthetic system
message via `integrateSummaryWithChunk`; the whole run issues exactly `k`
chunk calls and `k − 1` synopsis calls, and the overall result is the
provider's response to the final chunk call. -/
theorem claim_C2_chunk_flow (ft : String → LLMResponse)
    (fm fl : List ChatMessage → LLMResponse) (lang : Language)
    (msgs : List ChatMessage) (c0 : List ChatMessage) (crest : List (List ChatMessage))
    (hchunks : chunkLargeContext msgs = c0 :: crest)
    (hbig : 100000 ≤ estimatedTokensOf msgs) :
    ∃ r tail,
      handleExtremelyLargeContext (okOracle ft fm fl) lang msgs =
        (Except.ok r, Event.initProvider Provider.portkey :: Event.apiLarge c0 :: tail) ∧
      isSynChunkPairs tail = true ∧
      synPayloads tail = ctxsFrom ("" ++ "\n\n" ++ renderChunk c0) crest ∧
      (synPayloads tail).length = crest.length ∧
      chunkPayloads (Event.apiLarge c0 :: tail) =
        c0 :: List.zipWith (fun c ctx => integrateSummaryWithChunk c (ft ctx).summary lang)
          crest (synPayloads tail) ∧
      (chunkPayloads (Event.apiLarge c0 :: tail)).length = crest.length + 1 ∧
      (∃ p ps, chunkPayloads (Event.apiLarge c0 :: tail) = ps ++ [p] ∧ r = fl p) := by
  have hgate : ¬(estimatedTokensOf msgs < 100000 ∧ portkeyHasLargeContext = true) := by
    intro h
    omega
  cases crest with
  | nil =>
    have hfirst : elcLoop (okOracle ft fm fl) lang [c0] 0 "" "" =
        (Except.ok (fl c0), [Event.apiLarge c0]) := by
      rw [elcLoop, synopsisStep_first]
      simp only [integrate_empty, portkeyHasLargeContext, if_true, okOracle_callLarge]
      simp
    rw [handleExtremelyLargeContext, if_neg hgate, hchunks, hfirst]
    exact ⟨fl c0, [], rfl, rfl, rfl, rfl, by simp [chunkPayloads, synPayloads], rfl,
      ⟨c0, [], rfl, rfl⟩⟩
  | cons c1 cr =>
    have hne : ("" : String) ++ "\n\n" ++ renderChunk c0 ≠ "" :=
      append3_ne_empty "" "\n\n" (renderChunk c0) (by decide)
    obtain ⟨r, evs, hloop, hpairs, hsyn, hcp, hlast⟩ :=
      elcLoop_ok_spec ft fm fl lang (c1 :: cr) (by simp) 1
        ("" ++ "\n\n" ++ renderChunk c0) "" (by omega) hne
    have hfirst : elcLoop (okOracle ft fm fl) lang (c0 :: c1 :: cr) 0 "" "" =
        (Except.ok r, [Event.apiLarge c0] ++ evs) := by
      rw [elcLoop, synopsisStep_first]
      simp only [integrate_empty, portkeyHasLargeContext, if_true, okOracle_callLarge]
      rw [hloop]
      simp
    rw [handleExtremelyLargeContext, if_neg hgate, hchunks, hfirst]
    have h1 : chunkPayloads (Event.apiLarge c0 :: evs) = c0 :: chunkPayloads evs := by
      simp [chunkPayloads]
    refine ⟨r, evs, rfl, hpairs, hsyn, ?_, ?_, ?_, ?_⟩
    · rw [hsyn, ctxsFrom_length]
    · rw [h1, hcp]
    · rw [h1, hcp]
      simp [List.length_zipWith, hsyn, ctxsFrom_length]
    · obtain ⟨p, ps, hps, hr⟩ := hlast
      refine ⟨p, c0 :: ps, ?_, hr⟩
      rw [h1, hps]
      simp

lemma bigStr_length (n : Nat) : (bigStr n).length = n := by
  show (List.replicate n 'a').length = n
  simp

attribute [irreducible] bigStr

lemma demoLargeM1_content : demoLargeM1.content = bigStr 200002 := rfl

lemma demoLargeM2_content : demoLargeM2.content = bigStr 200002 := rfl

lemma demoLargeM1_len : demoLargeM1.content.length = 200002 := by
  rw [demoLargeM1_content, bigStr_length]

lemma demoLargeM2_len : demoLargeM2.content.length = 200002 := by
  rw [demoLargeM2_content, bigStr_length]

lemma demoLargeTot : totalContentLength demoLargeMsgs = 400004 := by
  rw [totalContentLength, demoLargeMsgs]
  rw [List.foldl_cons, List.foldl_cons, List.foldl_nil, demoLargeM1_len, demoLargeM2_len]

lemma demoLargeEst : estimatedTokensOf demoLargeMsgs = 100001 := by
  rw [estimatedTokensOf, demoLargeTot]

lemma demoLargeChunks : chunkLargeContext demoLargeMsgs = [[demoLargeM1], [demoLargeM2]] := by
  rw [chunkLargeContext, demoLargeMsgs]
  rw [chunkLoop, if_neg (fun h => h.2 rfl)]
  rw [chunkLoop, if_pos ⟨by rw [demoLargeM1_len, demoLargeM2_len]; norm_num [maxChunkSize],
    by simp⟩]
  rw [chunkLoop, if_neg (by simp)]
  simp

/-- Witness for C2: the two-message 400004-character sequence is chunked
into two singleton chunks and processed with one synopsis call between the
two chunk calls, whose answer is what the second chunk call carries. -/
theorem claim_C2_chunk_flow_witness :
    ∃ r tail,
      handleExtremelyLargeContext (okOracle demoFt demoFm demoFl) Language.english demoLargeMsgs =
        (Except.ok r,
         Event.initProvider Provider.portkey :: Event.apiLarge [demoLargeM1] :: tail) ∧
      isSynChunkPairs tail = true ∧
      synPayloads tail = ctxsFrom ("" ++ "\n\n" ++ renderChunk [demoLargeM1]) [[demoLargeM2]] ∧
      (synPayloads tail).length = [[demoLargeM2]].length ∧
      chunkPayloads (Event.apiLarge [demoLargeM1] :: tail) =
        [demoLargeM1] ::
          List.zipWith
            (fun c ctx => integrateSummaryWithChunk c (demoFt ctx).summary Language.english)
            [[demoLargeM2]] (synPayloads tail) ∧
      (chunkPayloads (Event.apiLarge [demoLargeM1] :: tail)).length = [[demoLargeM2]].length + 1 ∧
      (∃ p ps, chunkPayloads (Event.apiLarge [demoLargeM1] :: tail) = ps ++ [p] ∧
        r = demoFl p) :=
  claim_C2_chunk_flow demoFt demoFm demoFl Language.english demoLargeMsgs
    [demoLargeM1] [[demoLargeM2]] demoLargeChunks (by rw [demoLargeEst]; norm_num)

lemma apiLarge_not_in_synopsisStep (o : ProviderOracle) (i : Nat) (pc cs : String)
    (p : List ChatMessage) : Event.apiLarge p ∉ (synopsisStep o i pc cs).2 := by
  rcases synopsisStep_events o i pc cs with h | h <;> rw [h] <;> simp

lemma elcLoop_cons_err {o : ProviderOracle} {lang : Language} {chunk : List ChatMessage}
    {rest : List (List ChatMessage)} {i : Nat} {pc csum s1 : String} {ev1 : List Event}
    {e : String}
    (hs : synopsisStep o i pc csum = (s1, ev1))
    (hc : o.callLarge (integrateSummaryWithChunk chunk s1 lang) = Except.error e) :
    elcLoop o lang (chunk :: rest) i pc csum =
      (Except.error e, ev1 ++ [Event.apiLarge (integrateSummaryWithChunk chunk s1 lang)]) := by
  rw [elcLoop, hs]
  simp only [portkeyHasLargeContext, if_true, hc]

lemma elcLoop_last_ok {o : ProviderOracle} {lang : Language} {chunk : List ChatMessage}
    {i : Nat} {pc csum s1 : String} {ev1 : List Event} {resp : LLMResponse}
    (hs : synopsisStep o i pc csum = (s1, ev1))
    (hc : o.callLarge (integrateSummaryWithChunk chunk s1 lang) = Except.ok resp) :
    elcLoop o lang [chunk] i pc csum =
      (Except.ok resp, ev1 ++ [Event.apiLarge (integrateSummaryWithChunk chunk s1 lang)]) := by
  rw [elcLoop, hs]
  simp only [portkeyHasLargeContext, if_true, hc]

lemma elcLoop_step_ok {o : ProviderOracle} {lang : Language} {chunk r1 : List ChatMessage}
    {rs : List (List ChatMessage)} {i : Nat} {pc csum s1 : String} {ev1 : List Event}
    {resp : LLMResponse}
    (hs : synopsisStep o i pc csum = (s1, ev1))
    (hc : o.callLarge (integrateSummaryWithChunk chunk s1 lang) = Except.ok resp) :
    elcLoop o lang (chunk :: r1 :: rs) i pc csum =
      ((elcLoop o lang (r1 :: rs) (i + 1) (pc ++ "\n\n" ++ renderChunk chunk) s1).1,
       ev1 ++ [Event.apiLarge (integrateSummaryWithChunk chunk s1 lang)] ++
         (elcLoop o lang (r1 :: rs) (i + 1) (pc ++ "\n\n" ++ renderChunk chunk) s1).2) := by
  rw [elcLoop, hs]
  simp only [portkeyHasLargeContext, if_true, hc]

lemma elcLoop_error_surfaces (o : ProviderOracle) (lang : Language) :
    ∀ (cs : List (List ChatMessage)) (i : Nat) (pc csum : String)
      (p : List ChatMessage) (e : String),
    Event.apiLarge p ∈ (elcLoop o lang cs i pc csum).2 →
    o.callLarge p = Except.error e →
    (elcLoop o lang cs i pc csum).1 = Except.error e := by
  intro cs
  induction cs with
  | nil =>
    intro i pc csum p e hm _
    simp [elcLoop] at hm
  | cons c rest ih =>
    intro i pc csum p e hm hf
    rcases hsv : synopsisStep o i pc csum with ⟨s1, ev1⟩
    have hnotin : Event.apiLarge p ∉ ev1 := by
      have h0 := apiLarge_not_in_synopsisStep o i pc csum p
      rw [hsv] at h0
      exact h0
    rcases hcl : o.callLarge (integrateSummaryWithChunk c s1 lang) with e' | resp
    · rw [elcLoop_cons_err hsv hcl] at hm ⊢
      rw [List.mem_append] at hm
      rcases hm with hm | hm
      · exact absurd hm hnotin
      · have hp : p = integrateSummaryWithChunk c s1 lang := by
          simpa using hm
        rw [hp] at hf
        have he := hcl.symm.trans hf
        injection he with he2
        rw [he2]
    · cases rest with
      | nil =>
        rw [elcLoop_last_ok hsv hcl] at hm
        rw [List.mem_append] at hm
        rcases hm with hm | hm
        · exact absurd hm hnotin
        · have hp : p = integrateSummaryWithChunk c s1 lang := by
            simpa using hm
          rw [hp] at hf
          exact absurd (hcl.symm.trans hf) (by simp)
      | cons r1 rs =>
        rw [elcLoop_step_ok hsv hcl] at hm ⊢
        rw [List.append_assoc, List.mem_append, List.mem_append] at hm
        rcases hm with hm | hm | hm
        · exact absurd hm hnotin
        · have hp : p = integrateSummaryWithChunk c s1 lang := by
            simpa using hm
          rw [hp] at hf
          exact absurd (hcl.symm.trans hf) (by simp)
        · exact ih (i + 1) (pc ++ "\n\n" ++ renderChunk c) s1 p e hm hf

/-- C4 (amended): if any *chunk* call (`callLargeContextAPI` on a chunk)
made during `handleExtremelyLargeContext` fails, the whole operation aborts
surfacing exactly that failure and no result is returned; a failed
*synopsis* call, by contrast, is caught and swallowed (the loop continues
with the previous synopsis), as the counterexample shows. -/
theorem claim_C4_amended_chunk_failure_aborts (o : ProviderOracle) (lang : Language)
    (msgs : List ChatMessage) (p : List ChatMessage) (e : String)
    (hm : Event.apiLarge p ∈ (handleExtremelyLargeContext o lang msgs).2)
    (hf : o.callLarge p = Except.error e) :
    (handleExtremelyLargeContext o lang msgs).1 = Except.error e := by
  unfold handleExtremelyLargeContext at hm ⊢
  split_ifs at hm ⊢ with h
  · simp at hm
    rw [hm] at hf
    simp [hf]
  · simp only [List.mem_cons] at hm
    rcases hm with hm | hm
    · exact absurd hm.symm (by simp)
    · exact elcLoop_error_surfaces o lang (chunkLargeContext msgs) 0 "" "" p e hm hf

lemma demoLargePc_def : demoLargePc = "" ++ "\n\n" ++ renderChunk [demoLargeM1] := rfl

lemma demoLargePc_pos : 0 < demoLargePc.length := by
  rw [demoLargePc_def, String.length_append, String.length_append]
  have h2 : ("\n\n" : String).length = 2 := rfl
  omega

lemma demoSynFailStep :
    synopsisStep synopsisFailOracle 1 demoLargePc "" = ("", [Event.apiText demoLargePc]) := by
  rw [synopsisStep, if_pos ⟨Nat.one_pos, demoLargePc_pos⟩]
  rfl

lemma demoGate : ¬(estimatedTokensOf demoLargeMsgs < 100000 ∧ portkeyHasLargeContext = true) := by
  rw [demoLargeEst]
  decide

lemma demoSynopsisFailRun :
    handleExtremelyLargeContext synopsisFailOracle Language.english demoLargeMsgs =
      (Except.ok { summary := "ok" },
       [Event.initProvider Provider.portkey, Event.apiLarge [demoLargeM1],
        Event.apiText demoLargePc, Event.apiLarge [demoLargeM2]]) := by
  have hc0 : synopsisFailOracle.callLarge
      (integrateSummaryWithChunk [demoLargeM1] "" Language.english) =
      Except.ok { summary := "ok" } := by
    rw [integrate_empty]
    rfl
  have hc1 : synopsisFailOracle.callLarge
      (integrateSummaryWithChunk [demoLargeM2] "" Language.english) =
      Except.ok { summary := "ok" } := by
    rw [integrate_empty]
    rfl
  rw [handleExtremelyLargeContext, if_neg demoGate, demoLargeChunks]
  rw [elcLoop_step_ok (synopsisStep_first synopsisFailOracle "" "") hc0]
  rw [← demoLargePc_def]
  rw [elcLoop_last_ok demoSynFailStep hc1]
  simp [integrate_empty]

/-- Counterexample to C4 as stated: a run in which a synopsis provider call
is made and fails (`callText` always throws), yet the chunked operation
completes successfully with the final chunk's response — a failed provider
call during chunk processing that does not abort the operation. -/
theorem claim_C4_counterexample :
    handleExtremelyLargeContext synopsisFailOracle Language.english demoLargeMsgs =
      (Except.ok { summary := "ok" },
       [Event.initProvider Provider.portkey, Event.apiLarge [demoLargeM1],
        Event.apiText demoLargePc, Event.apiLarge [demoLargeM2]])
    ∧ synopsisFailOracle.callText demoLargePc = Except.error "synopsis failed"
    ∧ (handleExtremelyLargeContext synopsisFailOracle Language.english
        demoLargeMsgs).2.any isApiTextEv = true := by
  refine ⟨demoSynopsisFailRun, rfl, ?_⟩
  rw [demoSynopsisFailRun]
  rfl

lemma demoChunkFailRun :
    handleExtremelyLargeContext chunkFailOracle Language.english demoLargeMsgs =
      (Except.error "chunk call failed",
       [Event.initProvider Provider.portkey, Event.apiLarge [demoLargeM1]]) := by
  have hc0 : chunkFailOracle.callLarge
      (integrateSummaryWithChunk [demoLargeM1] "" Language.english) =
      Except.error "chunk call failed" := by
    rw [integrate_empty]
    rfl
  rw [handleExtremelyLargeContext, if_neg demoGate, demoLargeChunks]
  rw [elcLoop_cons_err (synopsisStep_first chunkFailOracle "" "") hc0]
  simp [integrate_empty]

/-- Witness for the amended C4: with an oracle whose chunk calls fail, the
chunked run on the demo sequence surfaces exactly that failure. -/
theorem claim_C4_amended_witness :
    (handleExtremelyLargeContext chunkFailOracle Language.english demoLargeMsgs).1 =
      Except.error "chunk call failed" :=
  claim_C4_amended_chunk_failure_aborts chunkFailOracle Language.english demoLargeMsgs
    [demoLargeM1] "chunk call failed"
    (by rw [demoChunkFailRun]; simp) rfl

/-- C9: on a cache hit for an eligible request (non-empty content key, no
forced refresh, single user message), `callLLMAPI` answers with the cached
summary, `fromCache := true` and `cachedAt` equal to the stored entry's
timestamp, and the event trace is empty: no provider adapter is
initialized or invoked and no cache write happens. -/
theorem claim_C9_cache_hit_short_circuits (o : ProviderOracle) (store : CacheStore)
    (now expiry : Nat) (req : ChatRequest) (s : String)
    (helig : req.url ≠ "" ∧ req.forceFresh = false ∧ isTextSummarization req.messages = true)
    (hhit : summaryCacheGet store req.url (req.language.getD Language.chinese) now expiry =
      some s) :
    ∃ entry, getCacheEntry store req.url (req.language.getD Language.chinese) = some entry ∧
      s = entry.summary ∧
      callLLMAPI o store now expiry req =
        ({ summary := s, error := none, fromCache := some true,
           cachedAt := some entry.timestamp }, []) := by
  have hhit2 := hhit
  unfold summaryCacheGet at hhit2
  rcases hlook : getCacheEntry store req.url (req.language.getD Language.chinese)
    with _ | entry
  · rw [hlook] at hhit2
    exact absurd hhit2 (by simp)
  · rw [hlook] at hhit2
    dsimp only at hhit2
    by_cases hexp : now - entry.timestamp > expiry
    · rw [if_pos hexp] at hhit2
      exact absurd hhit2 (by simp)
    · rw [if_neg hexp] at hhit2
      have hs : entry.summary = s := Option.some.inj hhit2
      have hbody : callLLMAPIBody o store now expiry req =
          (Except.ok
            { summary := s
              error := none
              fromCache := some true
              cachedAt := some entry.timestamp }, []) := by
        simp only [callLLMAPIBody]
        rw [if_pos helig, hhit, hlook]
        simp
      refine ⟨entry, rfl, hs.symm, ?_⟩
      unfold callLLMAPI
      rw [hbody]

/-- Witness for C9: the English request hits the one-entry store and is
answered from the cache with the stored timestamp, with an empty trace. -/
theorem claim_C9_cache_hit_witness :
    ∃ entry, getCacheEntry storeFix "https://example.com"
        (englishReqFix.language.getD Language.chinese) = some entry ∧
      "cached summary" = entry.summary ∧
      callLLMAPI (okOracle demoFt demoFm demoFl) storeFix 6 86400000 englishReqFix =
        ({ summary := "cached summary", error := none, fromCache := some true,
           cachedAt := some entry.timestamp }, []) := by
  have h := claim_C9_cache_hit_short_circuits (okOracle demoFt demoFm demoFl) storeFix
    6 86400000 englishReqFix "cached summary" (by decide) (by decide)
  exact h

lemma pendingGet_pendingSet (m : PendingMap) (id : String) (pr : PendingRequest) :
    pendingGet (pendingSet m id pr) id = some pr := by
  unfold pendingGet pendingSet
  simp [List.find?]

/-- Counterexample to C5 as stated: a provider failure (`"boom"`) occurring
inside asynchronous request processing is *not* recorded as the terminal
`error` state — `callLLMAPI` converts it into a resolved response with an
`error` field, and `processLLMRequest` therefore records terminal status
`completed` whose result carries the error. -/
theorem claim_C5_counterexample :
    (callLLMAPI msgsFailOracle [] 0 0 openaiReqFix).1 =
      { summary := "", error := some "boom" }
    ∧ pendingGet (processViaCallLLMAPI pendingMapFix "r1" msgsFailOracle [] 0 0 openaiReqFix)
        "r1" =
      some { pendingFix with
             status := RequestStatus.completed
             result := some { summary := "", error := some "boom" } }
    ∧ (pendingGet (processViaCallLLMAPI pendingMapFix "r1" msgsFailOracle [] 0 0 openaiReqFix)
        "r1").map (fun pr => pr.status) = some RequestStatus.completed := by
  exact ⟨rfl, rfl, rfl⟩

/-- C5 (amended): a failure *thrown* inside asynchronous processing is
caught and recorded as the PendingRequest's terminal `error` state with the
message, and nothing propagates to the caller (`processLLMRequest` is a
total state transformer); however `callLLMAPI` itself never throws — it
converts any thrown failure into a resolved result with an `error` field —
so a provider failure reaches the recording step as a success value and is
recorded as terminal `completed` with that error-carrying result.  The
synchronous single-call path thus always resolves with a result object
carrying `error` instead of raising. -/
theorem claim_C5_amended_failure_recording (m : PendingMap) (id : String)
    (pr : PendingRequest) (e : String) (r : LLMResponse) (o : ProviderOracle)
    (store : CacheStore) (now expiry : Nat) (req : ChatRequest) (evs : List Event) :
    (pendingGet m id = some pr →
      pendingGet (processLLMRequest m id (Except.error e)) id =
        some { pr with status := RequestStatus.error, error := some e } ∧
      pendingGet (processLLMRequest m id (Except.ok r)) id =
        some { pr with status := RequestStatus.completed, result := some r })
    ∧ (callLLMAPIBody o store now expiry req = (Except.error e, evs) →
      callLLMAPI o store now expiry req = ({ summary := "", error := some e }, evs))
    ∧ (callLLMAPIBody o store now expiry req = (Except.error e, evs) →
      pendingGet m id = some pr →
      pendingGet (processViaCallLLMAPI m id o store now expiry req) id =
        some { pr with
               status := RequestStatus.completed
               result := some { summary := "", error := some e } }) := by
  have hconv : callLLMAPIBody o store now expiry req = (Except.error e, evs) →
      callLLMAPI o store now expiry req = ({ summary := "", error := some e }, evs) := by
    intro hbody
    unfold callLLMAPI
    rw [hbody]
  refine ⟨?_, hconv, ?_⟩
  · intro hget
    constructor
    · unfold processLLMRequest
      rw [hget]
      rw [pendingGet_pendingSet]
    · unfold processLLMRequest
      rw [hget]
      rw [pendingGet_pendingSet]
  · intro hbody hget
    unfold processViaCallLLMAPI
    rw [hconv hbody]
    unfold processLLMRequest
    rw [hget]
    rw [pendingGet_pendingSet]

/-- Witness for the amended C5 at the concrete one-entry pending map and
the failing-adapter oracle. -/
theorem claim_C5_amended_witness :
    (pendingGet pendingMapFix "r1" = some pendingFix →
      pendingGet (processLLMRequest pendingMapFix "r1" (Except.error "boom")) "r1" =
        some { pendingFix with status := RequestStatus.error, error := some "boom" } ∧
      pendingGet (processLLMRequest pendingMapFix "r1"
          (Except.ok { summary := "plain response" })) "r1" =
        some { pendingFix with
               status := RequestStatus.completed
               result := some { summary := "plain response" } })
    ∧ (callLLMAPIBody msgsFailOracle [] 0 0 openaiReqFix =
        (Except.error "boom", (callLLMAPIBody msgsFailOracle [] 0 0 openaiReqFix).2) →
      callLLMAPI msgsFailOracle [] 0 0 openaiReqFix =
        ({ summary := "", error := some "boom" },
         (callLLMAPIBody msgsFailOracle [] 0 0 openaiReqFix).2))
    ∧ (callLLMAPIBody msgsFailOracle [] 0 0 openaiReqFix =
        (Except.error "boom", (callLLMAPIBody msgsFailOracle [] 0 0 openaiReqFix).2) →
      pendingGet pendingMapFix "r1" = some pendingFix →
      pendingGet (processViaCallLLMAPI pendingMapFix "r1" msgsFailOracle [] 0 0 openaiReqFix)
        "r1" =
        some { pendingFix with
               status := RequestStatus.completed
               result := some { summary := "", error := some "boom" } }) :=
  claim_C5_amended_failure_recording pendingMapFix "r1" pendingFix "boom"
    { summary := "plain response" } msgsFailOracle [] 0 0 openaiReqFix
    (callLLMAPIBody msgsFailOracle [] 0 0 openaiReqFix).2

lemma cacheWrite_not_in_synopsisStep (o : ProviderOracle) (i : Nat) (pc cs : String)
    (u : String) (lg : Language) (s : String) (p : Provider) :
    Event.cacheWrite u lg s p ∉ (synopsisStep o i pc cs).2 := by
  rcases synopsisStep_events o i pc cs with h | h <;> rw [h] <;> simp

lemma cacheWrite_not_in_elcLoop (o : ProviderOracle) (lang : Language) :
    ∀ (cs : List (List ChatMessage)) (i : Nat) (pc csum : String)
      (u : String) (lg : Language) (s : String) (p : Provider),
    Event.cacheWrite u lg s p ∉ (elcLoop o lang cs i pc csum).2 := by
  intro cs
  induction cs with
  | nil =>
    intro i pc csum u lg s p hm
    simp [elcLoop] at hm
  | cons c rest ih =>
    intro i pc csum u lg s p hm
    rcases hsv : synopsisStep o i pc csum with ⟨s1, ev1⟩
    have hnotin : Event.cacheWrite u lg s p ∉ ev1 := by
      have h0 := cacheWrite_not_in_synopsisStep o i pc csum u lg s p
      rw [hsv] at h0
      exact h0
    rcases hcl : o.callLarge (integrateSummaryWithChunk c s1 lang) with e' | resp
    · rw [elcLoop_cons_err hsv hcl] at hm
      rw [List.mem_append] at hm
      rcases hm with hm | hm
      · exact hnotin hm
      · simp at hm
    · cases rest with
      | nil =>
        rw [elcLoop_last_ok hsv hcl] at hm
        rw [List.mem_append] at hm
        rcases hm with hm | hm
        · exact hnotin hm
        · simp at hm
      | cons r1 rs =>
        rw [elcLoop_step_ok hsv hcl] at hm
        rw [List.append_assoc, List.mem_append, List.mem_append] at hm
        rcases hm with hm | hm | hm
        · exact hnotin hm
        · simp at hm
        · exact ih (i + 1) (pc ++ "\n\n" ++ renderChunk c) s1 u lg s p hm

lemma cacheWrite_not_in_handleELC (o : ProviderOracle) (lang : Language)
    (msgs : List ChatMessage) (u : String) (lg : Language) (s : String) (p : Provider) :
    Event.cacheWrite u lg s p ∉ (handleExtremelyLargeContext o lang msgs).2 := by
  unfold handleExtremelyLargeContext
  split_ifs with h
  · simp
  · intro hm
    simp only [List.mem_cons] at hm
    rcases hm with hm | hm
    · simp at hm
    · exact cacheWrite_not_in_elcLoop o lang (chunkLargeContext msgs) 0 "" "" u lg s p hm

lemma cacheWrite_not_in_contextEvents (req : ChatRequest)
    (u : String) (lg : Language) (s : String) (p : Provider) :
    Event.cacheWrite u lg s p ∉ contextEvents req := by
  unfold contextEvents
  cases req.tabId <;> simp

lemma cacheWrite_not_in_pre (req : ChatRequest)
    (u : String) (lg : Language) (s : String) (p : Provider) :
    Event.cacheWrite u lg s p ∉ contextEvents req ++ [Event.initProvider req.provider] := by
  rw [List.mem_append]
  rintro (hm | hm)
  · exact cacheWrite_not_in_contextEvents req u lg s p hm
  · simp at hm

lemma isTextSummarization_length (msgs : List ChatMessage)
    (h : isTextSummarization msgs = true) : msgs.length = 1 := by
  cases msgs with
  | nil => simp [isTextSummarization] at h
  | cons m tail =>
    cases tail with
    | nil => rfl
    | cons m2 t2 => simp [isTextSummarization] at h

lemma afterCache_write_char (o : ProviderOracle) (req : ChatRequest) (language : Language)
    (u : String) (lg : Language) (s : String) (p : Provider)
    (hm : Event.cacheWrite u lg s p ∈ (callLLMAPIAfterCache o req language).2) :
    req.url ≠ "" ∧ isTextSummarization req.messages = true ∧
    req.provider ≠ Provider.portkey ∧ u = req.url ∧ lg = language ∧ p = req.provider ∧
    ∃ resp, o.callMsgs req.messages = Except.ok resp ∧ s = resp.summary ∧
      resp.summary ≠ "" ∧ resp.error = none ∧
      (callLLMAPIAfterCache o req language).1 = Except.ok resp := by
  unfold callLLMAPIAfterCache at hm ⊢
  by_cases hp : req.provider = Provider.portkey
  · rw [if_pos hp] at hm
    exfalso
    by_cases hest : estimatedTokensOf req.messages > 100000 ∧ portkeyHasLargeContext = true
    · rw [if_pos hest] at hm
      rw [List.mem_append] at hm
      rcases hm with hm | hm
      · exact cacheWrite_not_in_pre req u lg s p hm
      · exact cacheWrite_not_in_handleELC o language req.messages u lg s p hm
    · rw [if_neg hest] at hm
      simp only [portkeyHasLargeContext, if_true] at hm
      rw [List.mem_append] at hm
      rcases hm with hm | hm
      · exact cacheWrite_not_in_pre req u lg s p hm
      · simp at hm
  · rw [if_neg hp] at hm ⊢
    rcases hcall : o.callMsgs req.messages with e | resp
    · exfalso
      simp only [genericAPIPath, hcall] at hm
      rw [List.mem_append] at hm
      rcases hm with hm | hm
      · exact cacheWrite_not_in_pre req u lg s p hm
      · simp at hm
    · simp only [genericAPIPath, hcall] at hm ⊢
      by_cases hw : req.url ≠ "" ∧ resp.summary ≠ "" ∧ resp.error = none ∧
          isTextSummarization req.messages = true
      · rw [if_pos hw] at hm ⊢
        rw [List.mem_append] at hm
        rcases hm with hm | hm
        · exact absurd hm (cacheWrite_not_in_pre req u lg s p)
        · simp only [List.mem_cons, List.not_mem_nil, or_false] at hm
          rcases hm with hm | hm
          · exact absurd hm (by simp)
          · injection hm with h1 h2 h3 h4
            exact ⟨hw.1, hw.2.2.2, hp, h1, h2, h4, resp, rfl, h3, hw.2.1, hw.2.2.1, rfl⟩
      · exfalso
        rw [if_neg hw] at hm
        rw [List.mem_append] at hm
        rcases hm with hm | hm
        · exact cacheWrite_not_in_pre req u lg s p hm
        · simp at hm

lemma body_write_char (o : ProviderOracle) (store : CacheStore) (now expiry : Nat)
    (req : ChatRequest) (u : String) (lg : Language) (s : String) (p : Provider)
    (hm : Event.cacheWrite u lg s p ∈ (callLLMAPIBody o store now expiry req).2) :
    req.url ≠ "" ∧ isTextSummarization req.messages = true ∧
    req.provider ≠ Provider.portkey ∧ u = req.url ∧
    lg = req.language.getD Language.chinese ∧ p = req.provider ∧
    ∃ resp, o.callMsgs req.messages = Except.ok resp ∧ s = resp.summary ∧
      resp.summary ≠ "" ∧ resp.error = none ∧
      (callLLMAPIBody o store now expiry req).1 = Except.ok resp := by
  simp only [callLLMAPIBody] at hm ⊢
  by_cases hcond : req.url ≠ "" ∧ req.forceFresh = false ∧
      isTextSummarization req.messages = true
  · rw [if_pos hcond] at hm ⊢
    cases hget : summaryCacheGet store req.url (req.language.getD Language.chinese)
        now expiry with
    | none =>
      rw [hget] at hm
      exact afterCache_write_char o req (req.language.getD Language.chinese) u lg s p hm
    | some cs =>
      rw [hget] at hm
      simp at hm
  · rw [if_neg hcond] at hm ⊢
    exact afterCache_write_char o req (req.language.getD Language.chinese) u lg s p hm

lemma callLLMAPI_events_eq (o : ProviderOracle) (store : CacheStore) (now expiry : Nat)
    (req : ChatRequest) :
    (callLLMAPI o store now expiry req).2 = (callLLMAPIBody o store now expiry req).2 := by
  unfold callLLMAPI
  rcases hb : callLLMAPIBody o store now expiry req with ⟨res, evs⟩
  cases res <;> simp

lemma callLLMAPI_of_body_ok (o : ProviderOracle) (store : CacheStore) (now expiry : Nat)
    (req : ChatRequest) (resp : LLMResponse)
    (h : (callLLMAPIBody o store now expiry req).1 = Except.ok resp) :
    (callLLMAPI o store now expiry req).1 = resp := by
  unfold callLLMAPI
  rcases hb : callLLMAPIBody o store now expiry req with ⟨res, evs⟩
  rw [hb] at h
  simp at h
  rw [h]

/-- C1 (amended): a cache entry is written if and only if the request
carries a non-empty content key, its message sequence is exactly one
message with role `user`, the plain adapter call succeeded with a non-empty
summary and no error field, and the provider is *not* portkey (portkey
requests are served through the large-context paths, which return before
the cache-write line).  The written entry records the request's url,
language, the returned summary and the provider.  Unlike the cache *read*,
the cache *write* does not test `force-refresh`: a forced-refresh
summarization that succeeds is written back.  In particular no multi-turn
chat request ever causes a cache write. -/
theorem claim_C1_amended_cache_write_rule (o : ProviderOracle) (store : CacheStore)
    (now expiry : Nat) (req : ChatRequest) :
    (∀ u lg s p, Event.cacheWrite u lg s p ∈ (callLLMAPI o store now expiry req).2 →
      req.url ≠ "" ∧ isTextSummarization req.messages = true ∧
      req.provider ≠ Provider.portkey ∧ u = req.url ∧
      lg = req.language.getD Language.chinese ∧ p = req.provider ∧
      ∃ resp, o.callMsgs req.messages = Except.ok resp ∧ s = resp.summary ∧
        resp.summary ≠ "" ∧ resp.error = none ∧
        (callLLMAPI o store now expiry req).1 = resp)
    ∧ (req.provider ≠ Provider.portkey → req.url ≠ "" →
      isTextSummarization req.messages = true →
      (req.forceFresh = true ∨
        summaryCacheGet store req.url (req.language.getD Language.chinese) now expiry = none) →
      ∀ resp, o.callMsgs req.messages = Except.ok resp → resp.summary ≠ "" →
        resp.error = none →
        Event.cacheWrite req.url (req.language.getD Language.chinese) resp.summary req.provider
          ∈ (callLLMAPI o store now expiry req).2)
    ∧ (2 ≤ req.messages.length →
      ∀ u lg s p, Event.cacheWrite u lg s p ∉ (callLLMAPI o store now expiry req).2) := by
  refine ⟨?_, ?_, ?_⟩
  · intro u lg s p hm
    rw [callLLMAPI_events_eq] at hm
    obtain ⟨h1, h2, h3, h4, h5, h6, resp, hcall, hs, hsum, herr, hres⟩ :=
      body_write_char o store now expiry req u lg s p hm
    exact ⟨h1, h2, h3, h4, h5, h6, resp, hcall, hs, hsum, herr,
      callLLMAPI_of_body_ok o store now expiry req resp hres⟩
  · intro hp hurl hsingle hcache resp hcall hsum herr
    rw [callLLMAPI_events_eq]
    have hafter : Event.cacheWrite req.url (req.language.getD Language.chinese)
        resp.summary req.provider ∈
        (callLLMAPIAfterCache o req (req.language.getD Language.chinese)).2 := by
      unfold callLLMAPIAfterCache
      rw [if_neg hp]
      simp only [genericAPIPath, hcall]
      rw [if_pos ⟨hurl, hsum, herr, hsingle⟩]
      simp
    simp only [callLLMAPIBody]
    rcases hcache with hff | hget
    · rw [if_neg (by intro h; rw [hff] at h; exact absurd h.2.1 (by simp))]
      exact hafter
    · by_cases hcond : req.url ≠ "" ∧ req.forceFresh = false ∧
          isTextSummarization req.messages = true
      · rw [if_pos hcond, hget]
        exact hafter
      · rw [if_neg hcond]
        exact hafter
  · intro hlen u lg s p hm
    obtain ⟨_, h2, _⟩ := by
      rw [callLLMAPI_events_eq] at hm
      exact body_write_char o store now expiry req u lg s p hm
    have := isTextSummarization_length req.messages h2
    omega

/-- Counterexample to C1 as stated: (i) a cache-eligible single-user
portkey request whose provider call succeeds produces *no* cache write
(the large-context path returns before the write); (ii) an openai request
with `force-refresh` *true* whose call succeeds *is* written to the cache,
although the claim requires `force-refresh` to be false for a write. -/
theorem claim_C1_counterexample :
    ((callLLMAPI (okOracle demoFt demoFm demoFl) [] 0 0 portkeyReqFix).1.error = none ∧
     (callLLMAPI (okOracle demoFt demoFm demoFl) [] 0 0 portkeyReqFix).1.summary ≠ "" ∧
     portkeyReqFix.url ≠ "" ∧ portkeyReqFix.forceFresh = false ∧
     isTextSummarization portkeyReqFix.messages = true ∧
     (callLLMAPI (okOracle demoFt demoFm demoFl) [] 0 0 portkeyReqFix).2.any
       isCacheWriteEv = false)
    ∧ (forceFreshReqFix.forceFresh = true ∧
       (callLLMAPI (okOracle demoFt demoFm demoFl) [] 0 0 forceFreshReqFix).2.any
         isCacheWriteEv = true) := by
  decide

/-- Witness for the amended C1: a successful openai summarization request
on an empty store issues a cache write for its url, language, summary and
provider. -/
theorem claim_C1_amended_witness :
    Event.cacheWrite "https://example.com" Language.chinese "plain response" Provider.openai
      ∈ (callLLMAPI (okOracle demoFt demoFm demoFl) [] 0 0 openaiReqFix).2 :=
  (claim_C1_amended_cache_write_rule (okOracle demoFt demoFm demoFl) [] 0 0
    openaiReqFix).2.1 (by decide) (by decide) (by decide) (Or.inr rfl)
    { summary := "plain response" } rfl (by decide) rfl

end SummaryExt
